import Mathlib

/-!
Verification development for the youpy media-download orchestrator
(`src/youpy` of Ryen-042/Youtube-Downloader-Yt-Dlp).

The Python modules are shallowly embedded: every relevant function is
translated to an executable Lean definition that mirrors the source line by
line.  Conventions used throughout:

* a yt-dlp format dictionary becomes the structure `StreamInfo`; for a field
  that the source only reads through `dict.get`, a missing key and a Python
  `None` value behave identically and both are modelled as `none`;
* Python string/number truthiness is made explicit (`intTruthy`, emptiness
  tests on strings);
* code that can raise an exception which the source catches (or that would
  crash) is modelled in the `Option` monad, with `none` for the raised
  exception;
* file-system state is passed explicitly: a directory listing is a
  `List String` of file names, a text-file store is an association list from
  path to content.
-/

namespace Youpy

/-- Model of one raw yt-dlp format dictionary, keeping exactly the keys the
embedded functions read.  Optional fields use `none` for a missing key or a
Python `None` value. -/
structure StreamInfo where
  format_id : String
  format_note : Option String
  ext : String
  resolution : String
  vcodec : Option String
  acodec : Option String
  filesize : Option Int
  filesize_approx : Option Int
deriving BEq, DecidableEq

/-- Python truthiness of an optional integer: `None` and `0` are falsy. -/
def intTruthy : Option Int → Bool
  | none => false
  | some n => n != 0

/-- Python `a or b` applied to the two optional size fields: the left value is
returned when truthy, otherwise the right value. -/
def sizeOr (a b : Option Int) : Option Int :=
  if intTruthy a then a else b

/-- Python `s[:4].upper()`: the first four characters, upper-cased
(the format notes involved are ASCII). -/
def upperPrefix4 (s : String) : String :=
  String.mk ((s.toList.take 4).map Char.toUpper)

/-- Filter condition of `groupYoutubeStreams` (streamsHelper.py line 41 and the
identical youtubeCore.py line 28): the stream is dropped when its format_note
is missing or "Default", or starts with "DASH" case-insensitively, or its
container is "mhtml"/"3gp", or neither size field is truthy.  When
`format_note` is `none` the first disjunct short-circuits, so the `getD`
default in the DASH test is never reached (Python would have raised on
`None[:4]` only if reached). -/
def streamFiltered (s : StreamInfo) : Bool :=
  (s.format_note == none || s.format_note == some "Default")
  || upperPrefix4 (s.format_note.getD "") == "DASH"
  || (s.ext == "mhtml" || s.ext == "3gp")
  || !(intTruthy (sizeOr s.filesize s.filesize_approx))

/-- Category key a surviving stream is grouped under, read off the branch
structure of `groupYoutubeStreams` (streamsHelper.py lines 45-64). -/
def categoryKey (s : StreamInfo) : String :=
  if s.resolution == "audio only" then "audio/" ++ s.ext
  else if s.vcodec != some "none" && s.acodec == some "none" then "video/" ++ s.ext
  else "audio-video/" ++ s.ext

/-- Membership test of a key in a Python dict modelled as an association
list. -/
def hasKey (d : List (String × List StreamInfo)) (k : String) : Bool :=
  d.any (fun p => p.1 == k)

/-- Python `dict[k].append(v)` with creation of the key on first use, keeping
insertion order: this is what every branch of `groupYoutubeStreams` does for
its category key. -/
def dictAppend (d : List (String × List StreamInfo)) (k : String) (s : StreamInfo) :
    List (String × List StreamInfo) :=
  if hasKey d k then
    d.map (fun p => if p.1 = k then (p.1, p.2 ++ [s]) else p)
  else d ++ [(k, [s])]

/-- Loop body of `groupYoutubeStreams`: skip a filtered stream, otherwise
append it to its category. -/
def groupStep (d : List (String × List StreamInfo)) (s : StreamInfo) :
    List (String × List StreamInfo) :=
  if streamFiltered s then d else dictAppend d (categoryKey s) s

/-- Embedding of `groupYoutubeStreams` (streamsHelper.py lines 23-70; the copy
in youtubeCore.py lines 11-56 has the same branches with the last two merged
into an elif).  A Python dict preserving insertion order is modelled as an
association list. -/
def groupYoutubeStreams (streams : List StreamInfo) : List (String × List StreamInfo) :=
  streams.foldl groupStep []

/-- Lookup in the grouped-streams dict: the list stored under a key (empty
when the key is absent). -/
def assocGet (d : List (String × List StreamInfo)) (k : String) : List StreamInfo :=
  match d with
  | [] => []
  | p :: rest => if p.1 = k then p.2 else assocGet rest k

/-- First-seen insertion order of the category keys of the surviving streams,
starting from keys already present: this is the key order a Python dict built
by `groupYoutubeStreams` exhibits. -/
def seenKeys (acc : List String) : List StreamInfo → List String
  | [] => acc
  | s :: rest =>
    if streamFiltered s then seenKeys acc rest
    else if acc.any (fun x => x == categoryKey s) then seenKeys acc rest
    else seenKeys (acc ++ [categoryKey s]) rest

/-- Filter rule of claim C4 taken at the spec's words, for comparison with
`streamFiltered`: here "format_note is empty" covers both a missing note and
an empty-string note. -/
def specFilterRule (s : StreamInfo) : Bool :=
  (s.format_note == none || s.format_note == some "" || s.format_note == some "Default")
  || upperPrefix4 (s.format_note.getD "") == "DASH"
  || (s.ext == "mhtml" || s.ext == "3gp")
  || !(intTruthy s.filesize || intTruthy s.filesize_approx)

/-! Selection of streams (streamsHelper.py `findStreamType`, `selectStreams`,
`extractFormatIdsFromSelectedStreams`, `parseAndSelectStreams`, and
youtubeCore.py `extractSelectedStreams`). -/

/-- Python `stream.get("vcodec", "none") or "none"` from `findStreamType`:
a missing key, `None`, or an empty string all collapse to "none". -/
def codecOrNone (c : Option String) : String :=
  match c with
  | none => "none"
  | some s => if s == "" then "none" else s

/-- Embedding of `findStreamType` (streamsHelper.py lines 234-259). -/
def findStreamType (s : StreamInfo) : String :=
  let vcodec := codecOrNone s.vcodec
  let acodec := codecOrNone s.acodec
  if vcodec != "none" && acodec != "none" then "audio-video"
  else if vcodec != "none" then "video"
  else if acodec != "none" then "audio"
  else "none"

/-- Outcome of one iteration of the `selectStreams` prompt loop
(streamsHelper.py lines 283-342).  The two `success` outcomes are the loop's
return values; every other constructor is one of the printed warnings after
which the loop re-prompts, with `inputError` the generic
`except Exception` catch-all. -/
inductive SelectionOutcome where
  | success (streams : List StreamInfo)
  | emptySelection
  | tooManyInputs
  | notEnoughInputs
  | badCategory1
  | badItem1
  | badCategory2
  | badItem2
  | incompatibleMuxed
  | incompatibleSameType
  | inputError
deriving BEq, DecidableEq

/-- Decimal digit value of a character, when it is a digit. -/
def digitVal? (c : Char) : Option Nat :=
  if c.isDigit then some (c.toNat - '0'.toNat) else none

/-- Parse of a non-empty all-digit character list as a natural number. -/
def parseNatDigits (cs : List Char) : Option Nat :=
  if cs.isEmpty then none
  else
    cs.foldl
      (fun acc c =>
        match acc, digitVal? c with
        | some a, some d => some (a * 10 + d)
        | _, _ => none)
      (some 0)

/-- Python `int(s)` on the numerals the selection prompt deals with: an
optional minus sign followed by decimal digits; `none` models the
ValueError on anything else. -/
def pyParseInt (s : String) : Option Int :=
  match s.toList with
  | '-' :: rest => (parseNatDigits rest).map (fun n => -(n : Int))
  | cs => (parseNatDigits cs).map (fun n => (n : Int))

/-- Python `int(choices[i])` inside the try block: `none` models the
IndexError of a missing entry or the ValueError of a non-numeric entry. -/
def parseChoice (choices : List String) (i : Nat) : Option Int :=
  match choices.get? i with
  | none => none
  | some s => pyParseInt s

/-- Python `groupedStreams[list(groupedStreams.keys())[ci - 1]][ii - 1]`:
the stream at 1-based category index `ci` and 1-based item index `ii`
(`none` models the IndexError/KeyError; the callers only reach this with
validated positive indices, so Python's negative-index wrap-around cannot
occur). -/
def streamAt (grouped : List (String × List StreamInfo)) (ci ii : Int) :
    Option StreamInfo := do
  let p ← grouped.get? (ci - 1).toNat
  p.2.get? (ii - 1).toNat

/-- Body of the `try` block of `selectStreams` (streamsHelper.py lines
300-342), in evaluation order; `none` is a raised exception, caught by the
enclosing `except`. -/
def selectBody (categoriesLengths : List Int)
    (grouped : List (String × List StreamInfo)) (choices : List String) :
    Option SelectionOutcome := do
  let c0 ← parseChoice choices 0
  if 0 < c0 && c0 ≤ (categoriesLengths.length : Int) then
    let c1 ← parseChoice choices 1
    let len0 ← categoriesLengths.get? (c0 - 1).toNat
    if 0 < c1 && c1 ≤ len0 then
      if choices.length == 2 then
        let s ← streamAt grouped c0 c1
        return .success [s]
      else
        let c2 ← parseChoice choices 2
        if 0 < c2 && c2 ≤ (categoriesLengths.length : Int) then
          let c3 ← parseChoice choices 3
          let len2 ← categoriesLengths.get? (c2 - 1).toNat
          if 0 < c3 && c3 ≤ len2 then
            let s1 ← streamAt grouped c0 c1
            let s2 ← streamAt grouped c2 c3
            if findStreamType s1 == "audio-video" || findStreamType s2 == "audio-video" then
              return .incompatibleMuxed
            else if findStreamType s1 == findStreamType s2 then
              return .incompatibleSameType
            else
              return .success [s1, s2]
          else return .badItem2
        else return .badCategory2
    else return .badItem1
  else return .badCategory1

/-- One iteration of `selectStreams` (streamsHelper.py lines 283-342) on the
already-split user input `choices` (Python `input().strip().split(" ")`; a
blank input yields the single empty string). -/
def selectStreamsStep (categoriesLengths : List Int)
    (grouped : List (String × List StreamInfo)) (choices : List String) :
    SelectionOutcome :=
  if choices == [""] then .emptySelection
  else if 4 < choices.length then .tooManyInputs
  else if choices.length < 2 then .notEnoughInputs
  else
    match selectBody categoriesLengths grouped choices with
    | some o => o
    | none => .inputError

/-- Python `stream["filesize"] if "filesize" in stream else
stream["filesize_approx"]` from `extractFormatIdsFromSelectedStreams`:
`none` models the KeyError when both fields are absent. -/
def streamSizeField (s : StreamInfo) : Option Int :=
  match s.filesize with
  | some v => some v
  | none => s.filesize_approx

/-- Embedding of `extractFormatIdsFromSelectedStreams` (streamsHelper.py
lines 345-372).  The loop keeps the last audio and last video/audio-video
format id seen and accumulates the sizes; the final format spec is
`video+audio` when both ids are non-empty, else whichever single id is
non-empty (Python `videoFromatId or audioFromatId`). -/
def extractFormatIdsFromSelectedStreams (selected : List StreamInfo) :
    Option (String × Int) := do
  let acc ← selected.foldlM
    (fun (acc : String × String × Int) s => do
      let sz ← streamSizeField s
      let aId := if findStreamType s == "audio" then s.format_id else acc.1
      let vId :=
        if findStreamType s == "video" || findStreamType s == "audio-video" then
          s.format_id
        else acc.2.1
      pure (aId, vId, acc.2.2 + sz))
    ("", "", 0)
  let fmt :=
    if acc.1 != "" && acc.2.1 != "" then acc.2.1 ++ "+" ++ acc.1
    else if acc.2.1 != "" then acc.2.1 else acc.1
  return (fmt, acc.2.2)

/-- Expected output container computed by `parseAndSelectStreams`
(streamsHelper.py line 434): the fixed value "mp4" when two streams were
selected, else the single selected stream's own extension. -/
def outputFileExtension (selected : List StreamInfo) : Option String :=
  if selected.length == 2 then some "mp4"
  else (selected.head?).map (fun s => s.ext)

/-- Python `"video" in text`: substring containment. -/
def strContains (hay needle : String) : Bool :=
  (List.range (hay.toList.length + 1)).any
    (fun i => needle.toList.isPrefixOf (hay.toList.drop i))

/-- Python `text.split("/")[0]`: the prefix before the first slash. -/
def takeUntilSlash (s : String) : String :=
  String.mk (s.toList.takeWhile (fun c => c != '/'))

/-- Format/size assembly at the end of `extractSelectedStreams`
(youtubeCore.py lines 163-173): the video id first, then `+` and the audio
id when a video was also picked; sizes are added with the same
present-else-approximate rule. -/
def esResult (videoSel audioSel : Option StreamInfo) :
    Option (String × Int × Bool) := do
  let vPart ←
    match videoSel with
    | none => some ("", (0 : Int))
    | some v => (streamSizeField v).map (fun sz => (v.format_id, sz))
  let aPart ←
    match audioSel with
    | none => some ("", (0 : Int))
    | some a =>
        (streamSizeField a).map
          (fun sz => ((if videoSel.isSome then "+" else "") ++ a.format_id, sz))
  some (vPart.1 ++ aPart.1, vPart.2 + aPart.2, videoSel.isSome)

/-- Embedding of `extractSelectedStreams` (youtubeCore.py lines 132-173).
The kind test on line 151 indexes `streamCategories` with the raw 1-based
`selected_streams_indexes[0]` (the source has no `- 1` there, unlike the
lookups on lines 152-161); `none` models the resulting IndexError. -/
def extractSelectedStreams (grouped : List (String × List StreamInfo))
    (idx : List Int) : Option (String × Int × Bool) := do
  let i0 ← idx.get? 0
  let i1 ← idx.get? 1
  let catName ← (grouped.map Prod.fst).get? i0.toNat
  let firstStream ← streamAt grouped i0 i1
  if strContains (takeUntilSlash catName) "video" then
    if 2 < idx.length then do
      let i2 ← idx.get? 2
      let i3 ← idx.get? 3
      let secondStream ← streamAt grouped i2 i3
      esResult (some firstStream) (some secondStream)
    else esResult (some firstStream) none
  else
    if 2 < idx.length then do
      let i2 ← idx.get? 2
      let i3 ← idx.get? 3
      let secondStream ← streamAt grouped i2 i3
      esResult (some secondStream) (some firstStream)
    else esResult none (some firstStream)

/-! History store, dedup resolution and the download step
(downloadHelper.py `isFilePresent`, `downloadFromYoutube`, `initDatabase`;
youtubeCore.py `downloadYoutubeVideo`, `downloadSingleYoutubeVideo`). -/

/-- Row of the `History` table created by `initDatabase`
(downloadHelper.py lines 358-370): `video_id` is the primary key. -/
structure HistoryRecord where
  video_id : String
  filename : String
  location : String
  date : String
deriving BEq, DecidableEq

/-- Which SQL statement `downloadFromYoutube`/`downloadYoutubeVideo` builds:
an UPDATE of filename/location/date keyed by video_id when the item was
downloaded before, an INSERT otherwise. -/
inductive HistoryQuery where
  | update
  | insert
deriving BEq, DecidableEq

/-- Point lookup `SELECT * FROM History WHERE video_id = ?`. -/
def historyLookup (h : List HistoryRecord) (id : String) : Option HistoryRecord :=
  h.find? (fun r => r.video_id == id)

/-- Effect of executing the built query on the table: INSERT appends a row,
UPDATE overwrites filename/location/date of every row with the key (at most
one, by the primary-key invariant). -/
def applyHistory (h : List HistoryRecord) (q : HistoryQuery × HistoryRecord) :
    List HistoryRecord :=
  match q.1 with
  | .insert => h ++ [q.2]
  | .update =>
      h.map (fun r0 =>
        if r0.video_id = q.2.video_id then
          { r0 with filename := q.2.filename, location := q.2.location, date := q.2.date }
        else r0)

/-- Root part of `os.path.splitext` for a bare file name: everything before
the last dot, unless every character before that dot is itself a dot (then
the name has no extension, as for Python's ".bashrc"). -/
def lastDot : List Char → Option Nat
  | [] => none
  | c :: rest =>
    match lastDot rest with
    | some i => some (i + 1)
    | none => if c == '.' then some 0 else none

/-- Python `os.path.splitext(name)[0]` for a plain file name (no path
separators occur in the stored filenames this is applied to). -/
def splitextRoot (name : String) : String :=
  let cs := name.toList
  match lastDot cs with
  | none => name
  | some d =>
      if (cs.take d).any (fun c => c != '.') then String.mk (cs.take d) else name

/-- Embedding of `isFilePresent` (downloadHelper.py lines 373-386).  `files`
is the listing of the recorded directory; the glob
`{directory}/{splitext(full_name)[0]}*` succeeds when some file name starts
with the recorded filename sans extension.  When no such file exists the
operator is asked "Do you want to download it again?"; `redownloadAnswer` is
their answer, and the function returns its negation (refusal makes the file
count as present, i.e. the job is skipped). -/
def isFilePresent (files : List String) (full_name : String)
    (redownloadAnswer : Bool) : Bool :=
  if files.any (fun f => (splitextRoot full_name).toList.isPrefixOf f.toList) then true
  else !redownloadAnswer

/-- Metadata fields of one video that the embedded download functions read. -/
structure VideoMeta where
  id : String
  display_id : String
  title : String
  fulltitle : String
  webpage_url : String
  description : String
deriving BEq, DecidableEq

/-- Terminal outcome of the `ydl.download` call: a zero exit, a nonzero exit
status, or an exception escaping the call. -/
inductive FetchOutcome where
  | ok
  | exited (code : Int)
  | raised
deriving BEq, DecidableEq

/-- Per-download entry of `ProgressBar.downloads_dict`
(downloadHelper.py lines 73-82): the five keys written by the hook.
Unknown values are the `-1` sentinel, as in the source. -/
structure DownloadInfo where
  status : String
  total_bytes : Int
  remaining_bytes : Int
  download_speed : Int
  eta_seconds : Int
deriving BEq, DecidableEq

/-- Python `dict.pop(k, None)` on a keyed association list. -/
def progressPop (d : List (String × DownloadInfo)) (k : String) :
    List (String × DownloadInfo) :=
  d.filter (fun e => e.1 != k)

/-- Text-file store: path to content, `fileGet` is existence plus content
(`some ""` is an existing zero-size file). -/
def fileGet (fs : List (String × String)) (p : String) : Option String :=
  (fs.find? (fun e => e.1 == p)).map Prod.snd

/-- Overwrite-or-create a text file. -/
def fileSet (fs : List (String × String)) (p v : String) : List (String × String) :=
  if fs.any (fun e => e.1 == p) then
    fs.map (fun e => if e.1 = p then (e.1, v) else e)
  else fs ++ [(p, v)]

/-- Content of the description side-file written by `downloadFromYoutube`
(downloadHelper.py line 300); the bytes-repr formatting detail of the
f-string is abstracted to the interpolated fields. -/
def descText (meta : VideoMeta) : String :=
  "Title: " ++ meta.title ++ "\n\nLink: " ++ meta.webpage_url
    ++ "\n\nDescription:\n\n" ++ meta.description

/-- Result of one `downloadFromYoutube` call: the history query and its
parameters on success (the source returns them for the caller to execute),
or the `(webpage_url, display_id, fulltitle)` failure triple, together with
the progress map and the description-file store after the call. -/
structure DlOutcome where
  result : (HistoryQuery × HistoryRecord) ⊕ (String × String × String)
  progress : List (String × DownloadInfo)
  files : List (String × String)
deriving BEq, DecidableEq

/-- Embedding of `downloadFromYoutube` (downloadHelper.py lines 201-302).
`fetch` is the outcome of `ydl.download`; `filename` stands for
`os.path.splitext(os.path.basename(ydl.prepare_filename(meta)))[0]` and
`today` for the formatted current date.  On a nonzero status or an exception
the function pops the item from the progress map and returns the failure
triple; on success it builds the UPDATE/INSERT query and conditionally writes
the description side-file. -/
def downloadFromYoutube (fetch : FetchOutcome) (meta : VideoMeta)
    (filename file_extension download_location : String)
    (downloaded_before write_desc : Bool) (today : String)
    (progress : List (String × DownloadInfo)) (files : List (String × String)) :
    DlOutcome :=
  match fetch with
  | .exited _ =>
      { result := Sum.inr (meta.webpage_url, meta.display_id, meta.fulltitle)
        progress := progressPop progress meta.display_id
        files := files }
  | .raised =>
      { result := Sum.inr (meta.webpage_url, meta.display_id, meta.fulltitle)
        progress := progressPop progress meta.display_id
        files := files }
  | .ok =>
      let query := if downloaded_before then HistoryQuery.update else HistoryQuery.insert
      let params : HistoryRecord :=
        { video_id := meta.id
          filename := filename ++ "." ++ file_extension
          location := download_location
          date := today }
      let descPath := download_location ++ "/" ++ filename ++ ".txt"
      let files1 :=
        if write_desc
            && (fileGet files descPath == none || fileGet files descPath == some "") then
          fileSet files descPath (descText meta)
        else files
      { result := Sum.inl (query, params), progress := progress, files := files1 }

/-- Description side-file step of `downloadYoutubeVideo` (youtubeCore.py
lines 244-246): that variant has no enable flag and writes the file whenever
it does not already exist (never touching an existing one, even an empty
one). -/
def downloadYoutubeVideoDescWrite (filename : String) (meta : VideoMeta)
    (files : List (String × String)) : List (String × String) :=
  if fileGet files (filename ++ ".txt") == none then
    fileSet files (filename ++ ".txt") (descText meta)
  else files

/-- Embedding of the dedup-then-download flow of `downloadSingleYoutubeVideo`
combined with `downloadYoutubeVideo` (youtubeCore.py lines 251-346 and
176-248).  `files` is the listing of the recorded location (also the download
location), `redownloadAnswer` the operator's answer to the re-download
prompt, `selectionEmpty` whether the stream selection came back empty, and
`fetchStatus` the exit status of `ydl.download`.  The result is the source's
status code with the history table after the run:
-4 already downloaded, -3 refused re-download, -2 selection cancelled,
nonzero fetch status propagated, 0 success (history written). -/
def runSingleYoutubeVideo (history : List HistoryRecord) (meta : VideoMeta)
    (files : List String) (redownloadAnswer selectionEmpty : Bool)
    (fetchStatus : Int) (filename location date : String) :
    Int × List HistoryRecord :=
  let afterDedup : (Int × List HistoryRecord) ⊕ Bool :=
    match historyLookup history meta.id with
    | none => Sum.inr false
    | some r =>
        if files.any (fun f => f == r.filename ++ ".mp4")
            || files.any (fun f => f == r.filename ++ ".m4a") then
          Sum.inl (-4, history)
        else if !redownloadAnswer then Sum.inl (-3, history)
        else Sum.inr true
  match afterDedup with
  | Sum.inl out => out
  | Sum.inr downloadedBefore =>
      if selectionEmpty then (-2, history)
      else if fetchStatus != 0 then (fetchStatus, history)
      else
        let newRec : HistoryRecord :=
          { video_id := meta.id, filename := filename, location := location, date := date }
        (0, applyHistory history
              (if downloadedBefore then HistoryQuery.update else HistoryQuery.insert, newRec))

/-- One job of the batch pipeline: its metadata, fetch outcome, prepared
filename and whether a history row already existed. -/
structure BatchJob where
  meta : VideoMeta
  fetch : FetchOutcome
  filename : String
  downloaded_before : Bool
deriving BEq, DecidableEq

/-- Aggregate state threaded through a batch run. -/
structure BatchState where
  history : List HistoryRecord
  progress : List (String × DownloadInfo)
  files : List (String × String)
  failed : List (String × String × String)
deriving BEq, DecidableEq

/-- Modelled from the spec: the per-job collection step of the batch
orchestrator (the `downloadMultipleYoutubeVideos` pipeline that drives
`downloadFromYoutube` and gathers outcomes is not under src/; guiService.py
`start_download` lines 270-277 shows the same protocol: a length-2 result is
executed against the history database, anything else is a failure).  Each
job runs `downloadFromYoutube`; a success applies the returned query to the
history table, a failure appends the returned triple to the failed list and
the run continues with the next job. -/
def runBatchJob (file_extension download_location : String) (write_desc : Bool)
    (today : String) (st : BatchState) (j : BatchJob) : BatchState :=
  let o := downloadFromYoutube j.fetch j.meta j.filename file_extension
    download_location j.downloaded_before write_desc today st.progress st.files
  match o.result with
  | Sum.inl q =>
      { st with history := applyHistory st.history q
                progress := o.progress
                files := o.files }
  | Sum.inr t =>
      { st with progress := o.progress
                files := o.files
                failed := st.failed ++ [t] }

/-- Modelled from the spec: the batch orchestrator processes its job list in
order, one `runBatchJob` per job, never aborting on a per-job failure. -/
def runBatch (file_extension download_location : String) (write_desc : Bool)
    (today : String) (st : BatchState) (jobs : List BatchJob) : BatchState :=
  jobs.foldl (runBatchJob file_extension download_location write_desc today) st

/-! Progress aggregation and render throttling
(downloadHelper.py `ProgressBar`). -/

/-- Fields of one yt-dlp progress callback dictionary that
`ProgressBar.progressBarHook` reads.  `id` is
`progress.get("info_dict", dict()).get("id", "-1")`. -/
structure ProgressSample where
  id : String
  status : String
  downloaded_bytes : Option Int
  total_bytes : Option Int
  speed : Option Int
  eta : Option Int
deriving BEq, DecidableEq

/-- Python `progress.get(key, -1) or -1`: a missing key, `None` or `0` all
become the `-1` sentinel. -/
def pyIntOr (o : Option Int) (dflt : Int) : Int :=
  match o with
  | none => dflt
  | some v => if v != 0 then v else dflt

/-- Upsert into the ordered downloads map: this is
`cls.downloads_dict[id] = dict()` followed by `.update(...)` for a new id,
and a plain `.update(...)` (overwriting the same five keys) for a known
id. -/
def upsertEntry (d : List (String × DownloadInfo)) (k : String) (v : DownloadInfo) :
    List (String × DownloadInfo) :=
  if d.any (fun e => e.1 == k) then
    d.map (fun e => if e.1 = k then (e.1, v) else e)
  else d ++ [(k, v)]

/-- Sample-ingestion part of `ProgressBar.progressBarHook`
(downloadHelper.py lines 54-82): a finished sample marks a known id
finished, a downloading sample upserts the five progress fields (with the
total/remaining pair collapsed to `-1` when the total is not above 1), any
other status touches nothing. -/
def ingestSample (d : List (String × DownloadInfo)) (p : ProgressSample) :
    List (String × DownloadInfo) :=
  if p.status == "finished" then
    if d.any (fun e => e.1 == p.id) then
      d.map (fun e => if e.1 = p.id then (e.1, { e.2 with status := "finished" }) else e)
    else d
  else if p.status == "downloading" then
    let downloaded_bytes := pyIntOr p.downloaded_bytes (-1)
    let total_bytes := pyIntOr p.total_bytes (-1)
    let pair :=
      if 1 < total_bytes then (total_bytes, total_bytes - downloaded_bytes)
      else (-1, -1)
    upsertEntry d p.id
      { status := "downloading"
        total_bytes := pair.1
        remaining_bytes := pair.2
        download_speed := pyIntOr p.speed (-1)
        eta_seconds := pyIntOr p.eta (-1) }
  else d

/-- Entry value the hook writes for a downloading sample: the five fields of
the `update` on downloadHelper.py lines 76-82. -/
def downloadingInfo (p : ProgressSample) : DownloadInfo :=
  let downloaded_bytes := pyIntOr p.downloaded_bytes (-1)
  let total_bytes := pyIntOr p.total_bytes (-1)
  let pair :=
    if 1 < total_bytes then (total_bytes, total_bytes - downloaded_bytes)
    else (-1, -1)
  { status := "downloading"
    total_bytes := pair.1
    remaining_bytes := pair.2
    download_speed := pyIntOr p.speed (-1)
    eta_seconds := pyIntOr p.eta (-1) }

/-- Map effect of `ProgressBar.displayProgressBars` (downloadHelper.py lines
188-198): after printing, `_moveCursorUp` deletes every entry whose status is
finished. -/
def displayProgressWork (d : List (String × DownloadInfo)) :
    List (String × DownloadInfo) :=
  d.filter (fun e => e.2.status != "finished")

/-- Throttle state of `ProgressBar`: the downloads map, the time of the last
executed render, and a counter of executed renders (the counter is a ghost
variable counting `displayProgressBars` calls; the source keeps no such
field). -/
structure ProgressBarState where
  downloads : List (String × DownloadInfo)
  last_execution_time : ℚ
  renderCount : Nat
deriving BEq, DecidableEq

/-- Class attribute `ProgressBar.throttle_timespan = 0.2` (seconds); the
float literal is exact at this value. -/
def throttle_timespan : ℚ := 0.2

/-- Embedding of `ProgressBar.progressBarHook` (downloadHelper.py lines
28-92) at wall-clock time `now`: ingest the sample unconditionally, then
render only when the bar is enabled and at least `throttle` has elapsed
since the last render (in which case `last_execution_time` is set to
`now`). -/
def progressBarHook (enable : Bool) (throttle : ℚ) (now : ℚ)
    (p : ProgressSample) (st : ProgressBarState) : ProgressBarState :=
  let st1 : ProgressBarState := { st with downloads := ingestSample st.downloads p }
  if !enable then st1
  else if throttle ≤ now - st1.last_execution_time then
    { downloads := displayProgressWork st1.downloads
      last_execution_time := now
      renderCount := st1.renderCount + 1 }
  else st1

/-- Replay of a time-stamped sample sequence through the hook. -/
def runHook (enable : Bool) (throttle : ℚ) (st : ProgressBarState)
    (events : List (ℚ × ProgressSample)) : ProgressBarState :=
  events.foldl (fun s e => progressBarHook enable throttle e.1 e.2 s) st

/-- Lookup of one id in the downloads map. -/
def lookupEntry (d : List (String × DownloadInfo)) (k : String) :
    Option DownloadInfo :=
  (d.find? (fun e => e.1 == k)).map Prod.snd

/-! Concurrency skeletons (guiService.py `start_batch_download` /
`start_playlist_download` versus youtubeCore.py `downloadYoutubePlaylist`). -/

/-- Worker-pool width passed by the web batch paths:
`ThreadPoolExecutor(max_workers=4)` (guiService.py lines 324 and 412). -/
def batchPoolWidth : Nat := 4

/-- Modelled from the spec: the bounded worker pool itself
(`concurrent.futures.ThreadPoolExecutor`) is an external library component;
its scheduling contract — at most `width` submitted jobs executing at once,
each job eventually completing — is modelled as a step relation on counts of
pending, running and finished jobs (the jobs are independent, so counts
suffice). -/
structure PoolState where
  pending : Nat
  running : Nat
  finished : Nat
deriving BEq, DecidableEq

/-- Scheduler steps of the bounded pool: start a pending job while a worker
slot is free, or complete a running job. -/
inductive PoolStep (width : Nat) : PoolState → PoolState → Prop
  | start (p r d : Nat) : r < width → PoolStep width ⟨p + 1, r, d⟩ ⟨p, r + 1, d⟩
  | complete (p r d : Nat) : PoolStep width ⟨p, r + 1, d⟩ ⟨p, r, d + 1⟩

/-- Reachability under the pool scheduler. -/
inductive PoolReach (width : Nat) : PoolState → PoolState → Prop
  | refl (s : PoolState) : PoolReach width s s
  | tail (s t u : PoolState) : PoolReach width s t → PoolStep width t u → PoolReach width s u

/-- Thread-management actions of `downloadYoutubePlaylist`. -/
inductive ThreadAction where
  | start (i : Nat)
  | join (i : Nat)
deriving BEq, DecidableEq

/-- Thread schedule skeleton of `downloadYoutubePlaylist` (youtubeCore.py
lines 447-504) for `n` selected entries: `threading.Thread(...).start()` is
called once per entry inside the loop, and every `join` happens only after
the loop, so all `n` starts precede the first join. -/
def playlistThreadTrace (n : Nat) : List ThreadAction :=
  ((List.range n).map ThreadAction.start) ++ ((List.range n).map ThreadAction.join)

/-- Running-thread count after a prefix of the schedule, in the execution
where a spawned thread is still running when it is joined (each start adds a
thread, each join retires one). -/
def threadDelta : ThreadAction → Int
  | .start _ => 1
  | .join _ => -1

/-- Fold step tracking the current and the maximal running-thread count. -/
def inFlightStep (a : Int × Int) (act : ThreadAction) : Int × Int :=
  let cur := a.1 + threadDelta act
  (cur, max a.2 cur)

/-- Maximum number of simultaneously running download threads along a
schedule, in the execution where each thread runs until its join. -/
def maxInFlight (tr : List ThreadAction) : Int :=
  (tr.foldl inFlightStep (0, 0)).2

/-! Video-id extraction (downloadHelper.py `idExtractor`) and its callers'
guards (guiService.py `get_streams`, `start_download`,
`start_batch_download`). -/

/-- Literal-prefix matcher: consume `lit` from the front of `s` or fail. -/
def litMatch (lit : String) (s : List Char) : Option (List Char) :=
  if lit.toList.isPrefixOf s then some (s.drop lit.toList.length) else none

/-- Greedy optional literal, as `(?:www\.)?` behaves inside this pattern: the
continuation after each optional piece starts with a character that can never
begin the piece itself, so committing to a successful literal match is
equivalent to the regex engine's backtracking. -/
def optMatch (lit : String) (s : List Char) : List Char :=
  match litMatch lit s with
  | some r => r
  | none => s

/-- Inner alternation `(?:watch\?v=|embed/|shorts/)` of the id-extraction
pattern, tried left to right. -/
def matchInner3 (s : List Char) : Option (List Char) :=
  match litMatch "watch?v=" s with
  | some r => some r
  | none =>
    match litMatch "embed/" s with
    | some r => some r
    | none => litMatch "shorts/" s

/-- First host alternative `youtu(?:be\.com/(?:watch\?v=|embed/|shorts/)|\.be/)`;
when `be.com/` matched but the inner alternation failed, the regex engine
retries `\.be/` at the same spot, which is kept here (and is vacuous, since a
string starting with "be" cannot start with "."). -/
def matchAlt1 (s : List Char) : Option (List Char) := do
  let s1 ← litMatch "youtu" s
  match (litMatch "be.com/" s1).bind matchInner3 with
  | some r => some r
  | none => litMatch ".be/" s1

/-- Host alternation of the pattern:
`(?:youtu(?:be\.com/(?:watch\?v=|embed/|shorts/)|\.be/)|youtube\.com/v/)`. -/
def matchHost (s : List Char) : Option (List Char) :=
  match matchAlt1 s with
  | some r => some r
  | none => litMatch "youtube.com/v/" s

/-- Character class `[\w\-_]` of the id group; Python's Unicode-aware `\w` is
modelled on the ASCII range the video ids use. -/
def isWordDashChar (c : Char) : Bool :=
  c.isAlphanum || c == '_' || c == '-'

/-- Match of the whole pattern
`https?://(?:www\.)?(?:m\.)?(?:youtu(?:be\.com/...|\.be/)|youtube\.com/v/)([\w\-_]*)`
at the start of `s`, returning the captured id group; the group's `*` is
greedy and may capture the empty string. -/
def matchAt (s : List Char) : Option String := do
  let s1 ← litMatch "http" s
  let s2 := optMatch "s" s1
  let s3 ← litMatch "://" s2
  let s4 := optMatch "www." s3
  let s5 := optMatch "m." s4
  let rest ← matchHost s5
  return String.mk (rest.takeWhile isWordDashChar)

/-- Left-to-right scan of `re.search`: the match at the leftmost matching
start position wins. -/
def idSearch : List Char → Option String
  | [] => matchAt []
  | c :: rest =>
    match matchAt (c :: rest) with
    | some g => some g
    | none => idSearch rest

/-- Python `url.strip()`: leading and trailing whitespace removed. -/
def stripChars (cs : List Char) : List Char :=
  ((cs.dropWhile Char.isWhitespace).reverse.dropWhile Char.isWhitespace).reverse

/-- Embedding of `idExtractor` (downloadHelper.py lines 311-337):
`url.strip()`, then search for the pattern; the captured group (possibly
empty) on a match, `None` otherwise. -/
def idExtractor (url : String) : Option String :=
  idSearch (stripChars url.toList)

/-- Guard shared by `get_streams` (guiService.py lines 91-93) and
`start_download` (lines 219-221): `if not video_id` rejects both `None` and
the empty string as an invalid reference before any job is created. -/
inductive UrlCheck where
  | invalidUrl
  | proceed (video_id : String)
deriving BEq, DecidableEq

/-- Truthiness guard over the extraction result, as written in the source:
`video_id = dh.idExtractor(url); if not video_id: return error`. -/
def guardVideoId (url : String) : UrlCheck :=
  match idExtractor url with
  | none => .invalidUrl
  | some id => if id == "" then .invalidUrl else .proceed id

/-- Job-creation skeleton of `start_batch_download` (guiService.py lines
412-415): each link's id is extracted and a falsy id makes the loop
`continue` without creating a job. -/
def batchJobsCreated (links : List String) : List String :=
  links.filterMap (fun url =>
    match idExtractor url with
    | none => none
    | some id => if id == "" then none else some id)

/-! Theorems.  Helper lemmas come first, then one theorem per claim
(with its witness or counterexample). -/

theorem assocGet_eq_nil_of_not_hasKey (d : List (String × List StreamInfo))
    (k : String) (h : hasKey d k = false) : assocGet d k = [] := by
  induction d with
  | nil => rfl
  | cons p rest ih =>
    have h2 : (p.1 == k) = false ∧ (rest.any fun q => q.1 == k) = false := by
      simpa [hasKey] using h
    have hp : ¬ p.1 = k := by simpa using h2.1
    show (if p.1 = k then p.2 else assocGet rest k) = []
    rw [if_neg hp]
    exact ih h2.2

theorem assocGet_append (d l : List (String × List StreamInfo)) (k : String) :
    assocGet (d ++ l) k = if hasKey d k then assocGet d k else assocGet l k := by
  induction d with
  | nil => simp [hasKey, assocGet]
  | cons p rest ih =>
    by_cases hp : p.1 = k
    · have hb : (p.1 == k) = true := by simp [hp]
      simp [assocGet, hasKey, hp, hb]
    · have hb : (p.1 == k) = false := by simp [hp]
      simp only [List.cons_append, assocGet, hp, if_false, hasKey, List.any_cons, hb,
        Bool.false_or] at ih ⊢
      exact ih

theorem assocGet_map_upd_self (d : List (String × List StreamInfo))
    (k : String) (s : StreamInfo) (h : hasKey d k = true) :
    assocGet (d.map (fun p => if p.1 = k then (p.1, p.2 ++ [s]) else p)) k
      = assocGet d k ++ [s] := by
  induction d with
  | nil => simp [hasKey] at h
  | cons p rest ih =>
    simp only [List.map_cons]
    by_cases hp : p.1 = k
    · rw [if_pos hp]
      show (if p.1 = k then p.2 ++ [s]
            else assocGet (rest.map fun p => if p.1 = k then (p.1, p.2 ++ [s]) else p) k)
          = (if p.1 = k then p.2 else assocGet rest k) ++ [s]
      rw [if_pos hp, if_pos hp]
    · have hb : (p.1 == k) = false := by simp [hp]
      have h2 : hasKey rest k = true := by
        simp only [hasKey, List.any_cons, hb, Bool.false_or] at h
        exact h
      rw [if_neg hp]
      show (if p.1 = k then p.2
            else assocGet (rest.map fun p => if p.1 = k then (p.1, p.2 ++ [s]) else p) k)
          = (if p.1 = k then p.2 else assocGet rest k) ++ [s]
      rw [if_neg hp, if_neg hp]
      exact ih h2

theorem assocGet_map_upd_ne (d : List (String × List StreamInfo))
    (k k' : String) (s : StreamInfo) (h : k' ≠ k) :
    assocGet (d.map (fun p => if p.1 = k then (p.1, p.2 ++ [s]) else p)) k'
      = assocGet d k' := by
  induction d with
  | nil => rfl
  | cons p rest ih =>
    simp only [List.map_cons]
    by_cases hp : p.1 = k
    · rw [if_pos hp]
      have hq : ¬ p.1 = k' := by rw [hp]; exact Ne.symm h
      show (if p.1 = k' then p.2 ++ [s]
            else assocGet (rest.map fun p => if p.1 = k then (p.1, p.2 ++ [s]) else p) k')
          = if p.1 = k' then p.2 else assocGet rest k'
      rw [if_neg hq, if_neg hq]
      exact ih
    · rw [if_neg hp]
      show (if p.1 = k' then p.2
            else assocGet (rest.map fun p => if p.1 = k then (p.1, p.2 ++ [s]) else p) k')
          = if p.1 = k' then p.2 else assocGet rest k'
      by_cases hq : p.1 = k'
      · rw [if_pos hq, if_pos hq]
      · rw [if_neg hq, if_neg hq]
        exact ih

theorem assocGet_dictAppend_self (d : List (String × List StreamInfo))
    (k : String) (s : StreamInfo) :
    assocGet (dictAppend d k s) k = assocGet d k ++ [s] := by
  unfold dictAppend
  by_cases h : hasKey d k = true
  · simp only [h, if_true]
    exact assocGet_map_upd_self d k s h
  · have hf : hasKey d k = false := by simpa using h
    simp only [hf, Bool.false_eq_true, if_false]
    rw [assocGet_append, hf, assocGet_eq_nil_of_not_hasKey d k hf]
    simp [assocGet]

theorem assocGet_dictAppend_ne (d : List (String × List StreamInfo))
    (k k' : String) (s : StreamInfo) (h : k' ≠ k) :
    assocGet (dictAppend d k s) k' = assocGet d k' := by
  unfold dictAppend
  by_cases hk : hasKey d k = true
  · simp only [hk, if_true]
    exact assocGet_map_upd_ne d k k' s h
  · have hf : hasKey d k = false := by simpa using hk
    simp only [hf, Bool.false_eq_true, if_false]
    rw [assocGet_append]
    by_cases hq : hasKey d k' = true
    · simp [hq]
    · have hqf : hasKey d k' = false := by simpa using hq
      rw [hqf, assocGet_eq_nil_of_not_hasKey d k' hqf]
      simp [assocGet, Ne.symm h]

theorem assocGet_foldl_groupStep (ss : List StreamInfo)
    (d : List (String × List StreamInfo)) (k : String) :
    assocGet (ss.foldl groupStep d) k
      = assocGet d k ++ ss.filter (fun s => !streamFiltered s && categoryKey s == k) := by
  induction ss generalizing d with
  | nil => simp
  | cons s rest ih =>
    simp only [List.foldl_cons, List.filter_cons]
    by_cases hf : streamFiltered s = true
    · simp only [groupStep, hf, if_true, Bool.not_true, Bool.false_and,
        Bool.false_eq_true, if_false]
      exact ih d
    · have hff : streamFiltered s = false := by simpa using hf
      by_cases hk : categoryKey s = k
      · have hck : (categoryKey s == k) = true := by simp [hk]
        simp only [groupStep, hff, Bool.false_eq_true, if_false, Bool.not_false,
          Bool.true_and, hck, if_true]
        rw [ih, hk, assocGet_dictAppend_self]
        simp
      · have hck : (categoryKey s == k) = false := by simp [hk]
        simp only [groupStep, hff, Bool.false_eq_true, if_false, Bool.not_false,
          Bool.true_and, hck, if_false]
        rw [ih, assocGet_dictAppend_ne d _ k s (Ne.symm hk)]

theorem dictAppend_keys (d : List (String × List StreamInfo)) (k : String)
    (s : StreamInfo) :
    (dictAppend d k s).map Prod.fst
      = if hasKey d k then d.map Prod.fst else d.map Prod.fst ++ [k] := by
  unfold dictAppend
  by_cases h : hasKey d k = true
  · simp only [h, if_true, List.map_map]
    have : (Prod.fst ∘ fun p : String × List StreamInfo =>
        if p.1 = k then (p.1, p.2 ++ [s]) else p) = Prod.fst := by
      funext p
      by_cases hp : p.1 = k <;> simp [hp]
    rw [this]
  · have hf : hasKey d k = false := by simpa using h
    simp [hf]

theorem hasKey_eq_keys_any (d : List (String × List StreamInfo)) (k : String) :
    hasKey d k = (d.map Prod.fst).any (fun x => x == k) := by
  induction d with
  | nil => rfl
  | cons p rest ih =>
    show (p.1 == k || hasKey rest k)
      = (p.1 == k || (rest.map Prod.fst).any fun x => x == k)
    rw [ih]

theorem keys_foldl_groupStep (ss : List StreamInfo)
    (d : List (String × List StreamInfo)) :
    (ss.foldl groupStep d).map Prod.fst = seenKeys (d.map Prod.fst) ss := by
  induction ss generalizing d with
  | nil => rfl
  | cons s rest ih =>
    simp only [List.foldl_cons, seenKeys]
    by_cases hf : streamFiltered s = true
    · simp only [groupStep, hf, if_true]
      exact ih d
    · have hff : streamFiltered s = false := by simpa using hf
      simp only [groupStep, hff, Bool.false_eq_true, if_false]
      by_cases hk : hasKey d (categoryKey s) = true
      · have hk2 : ((d.map Prod.fst).any fun x => x == categoryKey s) = true := by
          rw [← hasKey_eq_keys_any]; exact hk
        simp only [hk2, if_true, ih, dictAppend_keys, hk]
      · have hkf : hasKey d (categoryKey s) = false := by simpa using hk
        have hk2 : ((d.map Prod.fst).any fun x => x == categoryKey s) = false := by
          rw [← hasKey_eq_keys_any]; exact hkf
        simp only [hk2, Bool.false_eq_true, if_false, ih, dictAppend_keys, hkf]

/-- Claim C4, counterexample: a stream whose `format_note` is the empty
string.  The claim's filter rule "format_note is empty or Default" matches
it (`specFilterRule`), yet `groupYoutubeStreams` keeps it: the source tests
`stream.get("format_note") in [None, 'Default']`, and the empty string is in
neither, so the entry survives and lands in its video category. -/
theorem C4_counterexample :
    specFilterRule ⟨"22", some "", "mp4", "1280x720", some "avc1", some "none",
        some 1000, none⟩ = true
      ∧ groupYoutubeStreams
          [⟨"22", some "", "mp4", "1280x720", some "avc1", some "none", some 1000, none⟩]
        = [("video/mp4",
            [⟨"22", some "", "mp4", "1280x720", some "avc1", some "none", some 1000, none⟩])] := by
  exact ⟨by decide, by decide⟩

/-- Claim C4 as amended: an entry appears in some category of
`groupYoutubeStreams`' output exactly when it occurs in the input and no
source filter rule matches it, the rules being: format_note missing or
"Default" (an empty-string note does not match this rule), format_note
beginning with "DASH" case-insensitively, container "mhtml" or "3gp", or
neither size field holding a nonzero value.  In particular entries matching
any rule never appear in any output category. -/
theorem C4_filter_membership (streams : List StreamInfo) (s : StreamInfo) :
    (∃ k, s ∈ assocGet (groupYoutubeStreams streams) k)
      ↔ (s ∈ streams ∧ streamFiltered s = false) := by
  constructor
  · rintro ⟨k, hk⟩
    rw [groupYoutubeStreams, assocGet_foldl_groupStep] at hk
    simp only [assocGet, List.nil_append] at hk
    have hmf := List.mem_filter.mp hk
    refine ⟨hmf.1, ?_⟩
    have h2 := hmf.2
    simp only [Bool.and_eq_true, Bool.not_eq_true'] at h2
    exact h2.1
  · rintro ⟨hmem, hf⟩
    refine ⟨categoryKey s, ?_⟩
    rw [groupYoutubeStreams, assocGet_foldl_groupStep]
    simp only [assocGet, List.nil_append]
    exact List.mem_filter.mpr ⟨hmem, by simp [hf]⟩

/-- Witness for `C4_filter_membership`: the forward direction applied to a
concrete surviving stream of a concrete run. -/
theorem C4_filter_membership_witness :
    (⟨"137", some "1080p", "mp4", "1920x1080", some "avc1", some "none", some 5000,
        none⟩ : StreamInfo)
        ∈ [(⟨"137", some "1080p", "mp4", "1920x1080", some "avc1", some "none",
            some 5000, none⟩ : StreamInfo)]
      ∧ streamFiltered
          ⟨"137", some "1080p", "mp4", "1920x1080", some "avc1", some "none",
            some 5000, none⟩ = false :=
  (C4_filter_membership
    [⟨"137", some "1080p", "mp4", "1920x1080", some "avc1", some "none", some 5000, none⟩]
    ⟨"137", some "1080p", "mp4", "1920x1080", some "avc1", some "none", some 5000, none⟩).mp
    ⟨"video/mp4", by
      rw [show assocGet
          (groupYoutubeStreams
            [⟨"137", some "1080p", "mp4", "1920x1080", some "avc1", some "none",
              some 5000, none⟩])
          "video/mp4"
        = [⟨"137", some "1080p", "mp4", "1920x1080", some "avc1", some "none",
            some 5000, none⟩] from by decide]
      exact List.mem_singleton.mpr rfl⟩

/-- Claim C5: stream classification and ordering of `groupYoutubeStreams`.
For every input list: (a) the list stored under each category key is exactly
the surviving input entries with that key, in input order (grouping is a
pure function of its input, hence deterministic); (b) the category iteration
order is the first-seen insertion order of the surviving entries' keys;
(c) a stream found under key `k` was placed by the source's rules — the
audio/container category when its resolution label is "audio only", the
video/container category when its vcodec is not the "none" marker and its
acodec is, and the audio-video/container category otherwise. -/
theorem C5_grouping (streams : List StreamInfo) :
    (∀ k, assocGet (groupYoutubeStreams streams) k
        = streams.filter (fun s => !streamFiltered s && categoryKey s == k))
      ∧ (groupYoutubeStreams streams).map Prod.fst = seenKeys [] streams
      ∧ (∀ s k, s ∈ assocGet (groupYoutubeStreams streams) k →
          (if s.resolution == "audio only" then k = "audio/" ++ s.ext
           else if s.vcodec != some "none" && s.acodec == some "none" then
             k = "video/" ++ s.ext
           else k = "audio-video/" ++ s.ext)) := by
  refine ⟨?_, ?_, ?_⟩
  · intro k
    rw [groupYoutubeStreams, assocGet_foldl_groupStep]
    simp [assocGet]
  · rw [groupYoutubeStreams, keys_foldl_groupStep]
    rfl
  · intro s k hk
    rw [groupYoutubeStreams, assocGet_foldl_groupStep] at hk
    simp only [assocGet, List.nil_append] at hk
    have h2 := (List.mem_filter.mp hk).2
    simp only [Bool.and_eq_true, beq_iff_eq] at h2
    rw [← h2.2]
    unfold categoryKey
    by_cases h1 : (s.resolution == "audio only") = true
    · simp [h1]
    · have h1f : (s.resolution == "audio only") = false := by simpa using h1
      by_cases hv : (s.vcodec != some "none" && s.acodec == some "none") = true
      · simp [h1f, hv]
      · have hvf : (s.vcodec != some "none" && s.acodec == some "none") = false := by
          simpa using hv
        simp [h1f, hvf]

/-- Witness for `C5_grouping`: its first component instantiated on a
concrete two-stream input evaluates the audio category. -/
theorem C5_grouping_witness :
    assocGet
        (groupYoutubeStreams
          [⟨"140", some "medium", "m4a", "audio only", some "none", some "mp4a.40.2",
              some 1000, none⟩,
            ⟨"137", some "1080p", "mp4", "1920x1080", some "avc1", some "none",
              some 5000, none⟩])
        "audio/m4a"
      = [⟨"140", some "medium", "m4a", "audio only", some "none", some "mp4a.40.2",
          some 1000, none⟩] := by
  rw [(C5_grouping
    [⟨"140", some "medium", "m4a", "audio only", some "none", some "mp4a.40.2",
        some 1000, none⟩,
      ⟨"137", some "1080p", "mp4", "1920x1080", some "avc1", some "none",
        some 5000, none⟩]).1 "audio/m4a"]
  decide

theorem step_eq_body (cl : List Int) (g : List (String × List StreamInfo))
    (ch : List String) (h2 : ch.length ≤ 4) (h3 : 2 ≤ ch.length) :
    selectStreamsStep cl g ch
      = match selectBody cl g ch with
        | some o => o
        | none => SelectionOutcome.inputError := by
  have h1 : ch ≠ [""] := by
    intro hh
    rw [hh] at h3
    simp at h3
  unfold selectStreamsStep
  rw [if_neg (by simpa using h1), if_neg (by omega), if_neg (by omega)]

theorem body_badCategory1 (cl : List Int) (g : List (String × List StreamInfo))
    (ch : List String) (c0 : Int) (h0 : parseChoice ch 0 = some c0)
    (hbad : ¬(0 < c0 ∧ c0 ≤ (cl.length : Int))) :
    selectBody cl g ch = some .badCategory1 := by
  unfold selectBody
  rw [h0]
  simp only [Option.bind_eq_bind', Option.some_bind]
  rw [if_neg (by simpa [Bool.and_eq_true, decide_eq_true_eq] using hbad)]
  rfl

theorem body_badItem1 (cl : List Int) (g : List (String × List StreamInfo))
    (ch : List String) (c0 c1 L0 : Int) (h0 : parseChoice ch 0 = some c0)
    (hok0 : 0 < c0 ∧ c0 ≤ (cl.length : Int)) (h1 : parseChoice ch 1 = some c1)
    (hL : cl.get? (c0 - 1).toNat = some L0) (hbad : ¬(0 < c1 ∧ c1 ≤ L0)) :
    selectBody cl g ch = some .badItem1 := by
  unfold selectBody
  rw [h0]
  simp only [Option.bind_eq_bind', Option.some_bind]
  rw [if_pos (by simp [hok0.1, hok0.2]), h1]
  simp only [Option.some_bind]
  rw [hL]
  simp only [Option.some_bind]
  rw [if_neg (by simpa [Bool.and_eq_true, decide_eq_true_eq] using hbad)]
  rfl

theorem body_success_single (cl : List Int) (g : List (String × List StreamInfo))
    (ch : List String) (c0 c1 L0 : Int) (s : StreamInfo)
    (h0 : parseChoice ch 0 = some c0) (hok0 : 0 < c0 ∧ c0 ≤ (cl.length : Int))
    (h1 : parseChoice ch 1 = some c1) (hL : cl.get? (c0 - 1).toNat = some L0)
    (hok1 : 0 < c1 ∧ c1 ≤ L0) (hlen : ch.length = 2)
    (hs : streamAt g c0 c1 = some s) :
    selectBody cl g ch = some (.success [s]) := by
  unfold selectBody
  rw [h0]
  simp only [Option.bind_eq_bind', Option.some_bind]
  rw [if_pos (by simp [hok0.1, hok0.2]), h1]
  simp only [Option.some_bind]
  rw [hL]
  simp only [Option.some_bind]
  rw [if_pos (by simp [hok1.1, hok1.2]), if_pos (by simp [hlen]), hs]
  rfl

theorem body_badCategory2 (cl : List Int) (g : List (String × List StreamInfo))
    (ch : List String) (c0 c1 L0 c2 : Int) (h0 : parseChoice ch 0 = some c0)
    (hok0 : 0 < c0 ∧ c0 ≤ (cl.length : Int)) (h1 : parseChoice ch 1 = some c1)
    (hL : cl.get? (c0 - 1).toNat = some L0) (hok1 : 0 < c1 ∧ c1 ≤ L0)
    (hne2 : ch.length ≠ 2) (h2 : parseChoice ch 2 = some c2)
    (hbad : ¬(0 < c2 ∧ c2 ≤ (cl.length : Int))) :
    selectBody cl g ch = some .badCategory2 := by
  unfold selectBody
  rw [h0]
  simp only [Option.bind_eq_bind', Option.some_bind]
  rw [if_pos (by simp [hok0.1, hok0.2]), h1]
  simp only [Option.some_bind]
  rw [hL]
  simp only [Option.some_bind]
  rw [if_pos (by simp [hok1.1, hok1.2]), if_neg (by simpa using hne2), h2]
  simp only [Option.some_bind]
  rw [if_neg (by simpa [Bool.and_eq_true, decide_eq_true_eq] using hbad)]
  rfl

theorem body_badItem2 (cl : List Int) (g : List (String × List StreamInfo))
    (ch : List String) (c0 c1 L0 c2 c3 L2 : Int) (h0 : parseChoice ch 0 = some c0)
    (hok0 : 0 < c0 ∧ c0 ≤ (cl.length : Int)) (h1 : parseChoice ch 1 = some c1)
    (hL : cl.get? (c0 - 1).toNat = some L0) (hok1 : 0 < c1 ∧ c1 ≤ L0)
    (hne2 : ch.length ≠ 2) (h2 : parseChoice ch 2 = some c2)
    (hok2 : 0 < c2 ∧ c2 ≤ (cl.length : Int)) (h3 : parseChoice ch 3 = some c3)
    (hL2 : cl.get? (c2 - 1).toNat = some L2) (hbad : ¬(0 < c3 ∧ c3 ≤ L2)) :
    selectBody cl g ch = some .badItem2 := by
  unfold selectBody
  rw [h0]
  simp only [Option.bind_eq_bind', Option.some_bind]
  rw [if_pos (by simp [hok0.1, hok0.2]), h1]
  simp only [Option.some_bind]
  rw [hL]
  simp only [Option.some_bind]
  rw [if_pos (by simp [hok1.1, hok1.2]), if_neg (by simpa using hne2), h2]
  simp only [Option.some_bind]
  rw [if_pos (by simp [hok2.1, hok2.2]), h3]
  simp only [Option.some_bind]
  rw [hL2]
  simp only [Option.some_bind]
  rw [if_neg (by simpa [Bool.and_eq_true, decide_eq_true_eq] using hbad)]
  rfl

theorem body_pair (cl : List Int) (g : List (String × List StreamInfo))
    (ch : List String) (c0 c1 L0 c2 c3 L2 : Int) (s1 s2 : StreamInfo)
    (h0 : parseChoice ch 0 = some c0) (hok0 : 0 < c0 ∧ c0 ≤ (cl.length : Int))
    (h1 : parseChoice ch 1 = some c1) (hL : cl.get? (c0 - 1).toNat = some L0)
    (hok1 : 0 < c1 ∧ c1 ≤ L0) (hne2 : ch.length ≠ 2)
    (h2 : parseChoice ch 2 = some c2) (hok2 : 0 < c2 ∧ c2 ≤ (cl.length : Int))
    (h3 : parseChoice ch 3 = some c3) (hL2 : cl.get? (c2 - 1).toNat = some L2)
    (hok3 : 0 < c3 ∧ c3 ≤ L2) (hs1 : streamAt g c0 c1 = some s1)
    (hs2 : streamAt g c2 c3 = some s2) :
    selectBody cl g ch
      = some
          (if findStreamType s1 = "audio-video" ∨ findStreamType s2 = "audio-video" then
            .incompatibleMuxed
          else if findStreamType s1 = findStreamType s2 then .incompatibleSameType
          else .success [s1, s2]) := by
  unfold selectBody
  rw [h0]
  simp only [Option.bind_eq_bind', Option.some_bind]
  rw [if_pos (by simp [hok0.1, hok0.2]), h1]
  simp only [Option.some_bind]
  rw [hL]
  simp only [Option.some_bind]
  rw [if_pos (by simp [hok1.1, hok1.2]), if_neg (by simpa using hne2), h2]
  simp only [Option.some_bind]
  rw [if_pos (by simp [hok2.1, hok2.2]), h3]
  simp only [Option.some_bind]
  rw [hL2]
  simp only [Option.some_bind]
  rw [if_pos (by simp [hok3.1, hok3.2]), hs1]
  simp only [Option.some_bind]
  rw [hs2]
  simp only [Option.some_bind]
  by_cases hm : findStreamType s1 = "audio-video" ∨ findStreamType s2 = "audio-video"
  · rw [if_pos (by simpa [Bool.or_eq_true] using hm), if_pos hm]
    rfl
  · rw [if_neg (by simpa [Bool.or_eq_true] using hm), if_neg hm]
    by_cases he : findStreamType s1 = findStreamType s2
    · rw [if_pos (by simpa using he), if_pos he]
      rfl
    · rw [if_neg (by simpa using he), if_neg he]
      rfl

theorem body_len3_error (cl : List Int) (g : List (String × List StreamInfo))
    (ch : List String) (c0 c1 L0 c2 : Int) (h0 : parseChoice ch 0 = some c0)
    (hok0 : 0 < c0 ∧ c0 ≤ (cl.length : Int)) (h1 : parseChoice ch 1 = some c1)
    (hL : cl.get? (c0 - 1).toNat = some L0) (hok1 : 0 < c1 ∧ c1 ≤ L0)
    (hlen : ch.length = 3) (h2 : parseChoice ch 2 = some c2)
    (hok2 : 0 < c2 ∧ c2 ≤ (cl.length : Int)) :
    selectBody cl g ch = none := by
  have h3 : parseChoice ch 3 = none := by
    unfold parseChoice
    rw [List.get?_eq_none.mpr (by omega)]
  unfold selectBody
  rw [h0]
  simp only [Option.bind_eq_bind', Option.some_bind]
  rw [if_pos (by simp [hok0.1, hok0.2]), h1]
  simp only [Option.some_bind]
  rw [hL]
  simp only [Option.some_bind]
  rw [if_pos (by simp [hok1.1, hok1.2]), if_neg (by simp [hlen]), h2]
  simp only [Option.some_bind]
  rw [if_pos (by simp [hok2.1, hok2.2]), h3]
  rfl

/-- Claim C2, counterexample: a pick list of length 3 is not rejected as an
arity error.  With categories sized [2, 3] the picks ["9", "1", "1"] have
length 3 (not 0, 2 or 4), yet `selectStreams` reports an invalid first
category (9 > 2) — index validation runs before any arity rejection for
length 3, contradicting the claimed validation order and error class. -/
theorem C2_counterexample :
    selectStreamsStep [2, 3]
        [("audio/m4a",
          [⟨"139", some "low", "m4a", "audio only", some "none", some "mp4a", some 500, none⟩,
            ⟨"140", some "medium", "m4a", "audio only", some "none", some "mp4a", some 1000, none⟩]),
          ("video/mp4",
          [⟨"136", some "720p", "mp4", "1280x720", some "avc1", some "none", some 3000, none⟩,
            ⟨"137", some "1080p", "mp4", "1920x1080", some "avc1", some "none", some 5000, none⟩,
            ⟨"138", some "2160p", "mp4", "3840x2160", some "avc1", some "none", some 9000, none⟩])]
        ["9", "1", "1"]
      = .badCategory1
      ∧ SelectionOutcome.badCategory1 ≠ .tooManyInputs
      ∧ SelectionOutcome.badCategory1 ≠ .notEnoughInputs := by
  exact ⟨by decide, by decide, by decide⟩

/-- Claim C2 as amended: the arity screen of `selectStreams` only rejects
more than 4 entries or fewer than 2 (a blank input returning the empty
selection first); a pick list of length 3 passes it, is validated index by
index, and dies on the missing fourth value with the generic input error.
In detail, for every category-length list, grouped-stream dict and pick
list: (1) length > 4 is rejected as too many inputs; (2) a non-blank length
< 2 as not enough inputs; (3) the blank input succeeds with the empty
selection; (4) a first category index outside [1, categoryCount] is an
invalid first category; (5) then a first item index outside
[1, categorySize] is an invalid first item; (6) a valid length-2 pick
returns that single stream; (7) for longer picks the second category and
item indices are validated the same way in that order; (8) a valid pair is
rejected when either stream is audio-video, (9) else when both have the
same kind, (10) and otherwise succeeds with both streams in pick order;
(11) a fully valid length-3 prefix ends in the generic input error. -/
theorem C2_selection_validation :
    (∀ (cl : List Int) (g : List (String × List StreamInfo)) (ch : List String),
        4 < ch.length → selectStreamsStep cl g ch = .tooManyInputs)
      ∧ (∀ (cl : List Int) (g : List (String × List StreamInfo)) (ch : List String),
          ch ≠ [""] → ch.length < 2 → selectStreamsStep cl g ch = .notEnoughInputs)
      ∧ (∀ (cl : List Int) (g : List (String × List StreamInfo)),
          selectStreamsStep cl g [""] = .emptySelection)
      ∧ (∀ (cl : List Int) (g : List (String × List StreamInfo)) (ch : List String)
            (c0 : Int), 2 ≤ ch.length → ch.length ≤ 4 →
          parseChoice ch 0 = some c0 → ¬(0 < c0 ∧ c0 ≤ (cl.length : Int)) →
          selectStreamsStep cl g ch = .badCategory1)
      ∧ (∀ (cl : List Int) (g : List (String × List StreamInfo)) (ch : List String)
            (c0 c1 L0 : Int), 2 ≤ ch.length → ch.length ≤ 4 →
          parseChoice ch 0 = some c0 → 0 < c0 ∧ c0 ≤ (cl.length : Int) →
          parseChoice ch 1 = some c1 → cl.get? (c0 - 1).toNat = some L0 →
          ¬(0 < c1 ∧ c1 ≤ L0) → selectStreamsStep cl g ch = .badItem1)
      ∧ (∀ (cl : List Int) (g : List (String × List StreamInfo)) (ch : List String)
            (c0 c1 L0 : Int) (s : StreamInfo), ch.length = 2 →
          parseChoice ch 0 = some c0 → 0 < c0 ∧ c0 ≤ (cl.length : Int) →
          parseChoice ch 1 = some c1 → cl.get? (c0 - 1).toNat = some L0 →
          0 < c1 ∧ c1 ≤ L0 → streamAt g c0 c1 = some s →
          selectStreamsStep cl g ch = .success [s])
      ∧ (∀ (cl : List Int) (g : List (String × List StreamInfo)) (ch : List String)
            (c0 c1 L0 c2 : Int), 2 ≤ ch.length → ch.length ≤ 4 → ch.length ≠ 2 →
          parseChoice ch 0 = some c0 → 0 < c0 ∧ c0 ≤ (cl.length : Int) →
          parseChoice ch 1 = some c1 → cl.get? (c0 - 1).toNat = some L0 →
          0 < c1 ∧ c1 ≤ L0 → parseChoice ch 2 = some c2 →
          ¬(0 < c2 ∧ c2 ≤ (cl.length : Int)) →
          selectStreamsStep cl g ch = .badCategory2)
      ∧ (∀ (cl : List Int) (g : List (String × List StreamInfo)) (ch : List String)
            (c0 c1 L0 c2 c3 L2 : Int), 2 ≤ ch.length → ch.length ≤ 4 → ch.length ≠ 2 →
          parseChoice ch 0 = some c0 → 0 < c0 ∧ c0 ≤ (cl.length : Int) →
          parseChoice ch 1 = some c1 → cl.get? (c0 - 1).toNat = some L0 →
          0 < c1 ∧ c1 ≤ L0 → parseChoice ch 2 = some c2 →
          0 < c2 ∧ c2 ≤ (cl.length : Int) → parseChoice ch 3 = some c3 →
          cl.get? (c2 - 1).toNat = some L2 → ¬(0 < c3 ∧ c3 ≤ L2) →
          selectStreamsStep cl g ch = .badItem2)
      ∧ (∀ (cl : List Int) (g : List (String × List StreamInfo)) (ch : List String)
            (c0 c1 L0 c2 c3 L2 : Int) (s1 s2 : StreamInfo),
          2 ≤ ch.length → ch.length ≤ 4 → ch.length ≠ 2 →
          parseChoice ch 0 = some c0 → 0 < c0 ∧ c0 ≤ (cl.length : Int) →
          parseChoice ch 1 = some c1 → cl.get? (c0 - 1).toNat = some L0 →
          0 < c1 ∧ c1 ≤ L0 → parseChoice ch 2 = some c2 →
          0 < c2 ∧ c2 ≤ (cl.length : Int) → parseChoice ch 3 = some c3 →
          cl.get? (c2 - 1).toNat = some L2 → 0 < c3 ∧ c3 ≤ L2 →
          streamAt g c0 c1 = some s1 → streamAt g c2 c3 = some s2 →
          selectStreamsStep cl g ch
            = (if findStreamType s1 = "audio-video" ∨ findStreamType s2 = "audio-video"
              then .incompatibleMuxed
              else if findStreamType s1 = findStreamType s2 then .incompatibleSameType
              else .success [s1, s2]))
      ∧ (∀ (cl : List Int) (g : List (String × List StreamInfo)) (ch : List String)
            (c0 c1 L0 c2 : Int), ch.length = 3 →
          parseChoice ch 0 = some c0 → 0 < c0 ∧ c0 ≤ (cl.length : Int) →
          parseChoice ch 1 = some c1 → cl.get? (c0 - 1).toNat = some L0 →
          0 < c1 ∧ c1 ≤ L0 → parseChoice ch 2 = some c2 →
          0 < c2 ∧ c2 ≤ (cl.length : Int) →
          selectStreamsStep cl g ch = .inputError) := by
  refine ⟨?_, ?_, ?_, ?_, ?_, ?_, ?_, ?_, ?_, ?_⟩
  · intro cl g ch h
    unfold selectStreamsStep
    have hne : ch ≠ [""] := by
      intro hh
      rw [hh] at h
      simp at h
    rw [if_neg (by simpa using hne), if_pos h]
  · intro cl g ch hne h
    unfold selectStreamsStep
    rw [if_neg (by simpa using hne), if_neg (by omega), if_pos h]
  · intro cl g
    unfold selectStreamsStep
    rw [if_pos (by decide)]
  · intro cl g ch c0 hlo hhi h0 hbad
    rw [step_eq_body cl g ch hhi hlo, body_badCategory1 cl g ch c0 h0 hbad]
  · intro cl g ch c0 c1 L0 hlo hhi h0 hok0 h1 hL hbad
    rw [step_eq_body cl g ch hhi hlo, body_badItem1 cl g ch c0 c1 L0 h0 hok0 h1 hL hbad]
  · intro cl g ch c0 c1 L0 s hlen h0 hok0 h1 hL hok1 hs
    rw [step_eq_body cl g ch (by omega) (by omega),
      body_success_single cl g ch c0 c1 L0 s h0 hok0 h1 hL hok1 hlen hs]
  · intro cl g ch c0 c1 L0 c2 hlo hhi hne2 h0 hok0 h1 hL hok1 h2 hbad
    rw [step_eq_body cl g ch hhi hlo,
      body_badCategory2 cl g ch c0 c1 L0 c2 h0 hok0 h1 hL hok1 hne2 h2 hbad]
  · intro cl g ch c0 c1 L0 c2 c3 L2 hlo hhi hne2 h0 hok0 h1 hL hok1 h2 hok2 h3 hL2 hbad
    rw [step_eq_body cl g ch hhi hlo,
      body_badItem2 cl g ch c0 c1 L0 c2 c3 L2 h0 hok0 h1 hL hok1 hne2 h2 hok2 h3 hL2 hbad]
  · intro cl g ch c0 c1 L0 c2 c3 L2 s1 s2 hlo hhi hne2 h0 hok0 h1 hL hok1 h2 hok2 h3 hL2 hok3 hs1 hs2
    rw [step_eq_body cl g ch hhi hlo,
      body_pair cl g ch c0 c1 L0 c2 c3 L2 s1 s2 h0 hok0 h1 hL hok1 hne2 h2 hok2 h3 hL2 hok3 hs1 hs2]
  · intro cl g ch c0 c1 L0 c2 hlen h0 hok0 h1 hL hok1 h2 hok2
    rw [step_eq_body cl g ch (by omega) (by omega),
      body_len3_error cl g ch c0 c1 L0 c2 h0 hok0 h1 hL hok1 hlen h2 hok2]

/-- Witness for `C2_selection_validation`: the valid-pair component applied
to a concrete audio pick paired with a concrete video pick, every hypothesis
discharged by evaluation, yields the two-stream success. -/
theorem C2_selection_validation_witness :
    selectStreamsStep [1, 1]
        [("audio/m4a",
          [⟨"140", some "medium", "m4a", "audio only", some "none", some "mp4a", some 1000, none⟩]),
          ("video/mp4",
          [⟨"137", some "1080p", "mp4", "1920x1080", some "avc1", some "none", some 5000, none⟩])]
        ["1", "1", "2", "1"]
      = .success
          [⟨"140", some "medium", "m4a", "audio only", some "none", some "mp4a", some 1000, none⟩,
            ⟨"137", some "1080p", "mp4", "1920x1080", some "avc1", some "none", some 5000, none⟩] := by
  have h := (C2_selection_validation).2.2.2.2.2.2.2.2.1 [1, 1]
    [("audio/m4a",
      [⟨"140", some "medium", "m4a", "audio only", some "none", some "mp4a", some 1000, none⟩]),
      ("video/mp4",
      [⟨"137", some "1080p", "mp4", "1920x1080", some "avc1", some "none", some 5000, none⟩])]
    ["1", "1", "2", "1"] 1 1 1 2 1 1
    ⟨"140", some "medium", "m4a", "audio only", some "none", some "mp4a", some 1000, none⟩
    ⟨"137", some "1080p", "mp4", "1920x1080", some "avc1", some "none", some 5000, none⟩
    (by decide) (by decide) (by decide) (by decide) (by decide) (by decide)
    (by decide) (by decide) (by decide) (by decide) (by decide) (by decide)
    (by decide) (by decide) (by decide)
  rw [h]
  decide

/-- Claim C3, evaluated at the failing inputs of `extractSelectedStreams`
(youtubeCore.py lines 132-173).  Its kind test
`"video" in streamCategories[selected_streams_indexes[0]].split("/")[0]`
indexes the category list with the raw 1-based index — the `- 1` used two
lines below is missing — so with categories [audio/m4a, video/mp4]:
(1) the valid selection [2, 1] raises IndexError (modelled `none`) instead
of returning format spec "137"; (2) the valid pair [1, 1, 2, 1] (audio 140
plus video 137) is assembled as "140+137" with the audio stream in the
video slot and `videoSelected = True`, instead of the claimed
"videoFormatId+audioFormatId" form "137+140".  The sibling implementation
`extractFormatIdsFromSelectedStreams` together with the container rule of
`parseAndSelectStreams` meets the claim on the same selections: format spec
"137" with size 5000 for the single video pick, "137+140" with size 6000
and fixed container "mp4" for the pair, and the native container "m4a" for
a single audio pick. -/
theorem C3_format_spec_eval :
    extractSelectedStreams
        [("audio/m4a",
          [⟨"140", some "medium", "m4a", "audio only", some "none", some "mp4a", some 1000, none⟩]),
          ("video/mp4",
          [⟨"137", some "1080p", "mp4", "1920x1080", some "avc1", some "none", some 5000, none⟩])]
        [2, 1]
      = none
      ∧ extractSelectedStreams
          [("audio/m4a",
            [⟨"140", some "medium", "m4a", "audio only", some "none", some "mp4a", some 1000, none⟩]),
            ("video/mp4",
            [⟨"137", some "1080p", "mp4", "1920x1080", some "avc1", some "none", some 5000, none⟩])]
          [1, 1, 2, 1]
        = some ("140+137", 6000, true)
      ∧ ("140+137" : String) ≠ "137+140"
      ∧ extractFormatIdsFromSelectedStreams
          [⟨"137", some "1080p", "mp4", "1920x1080", some "avc1", some "none", some 5000, none⟩]
        = some ("137", 5000)
      ∧ extractFormatIdsFromSelectedStreams
          [⟨"140", some "medium", "m4a", "audio only", some "none", some "mp4a", some 1000, none⟩,
            ⟨"137", some "1080p", "mp4", "1920x1080", some "avc1", some "none", some 5000, none⟩]
        = some ("137+140", 6000)
      ∧ outputFileExtension
          [⟨"140", some "medium", "m4a", "audio only", some "none", some "mp4a", some 1000, none⟩,
            ⟨"137", some "1080p", "mp4", "1920x1080", some "avc1", some "none", some 5000, none⟩]
        = some "mp4"
      ∧ outputFileExtension
          [⟨"140", some "medium", "m4a", "audio only", some "none", some "mp4a", some 1000, none⟩]
        = some "m4a" := by
  exact ⟨by decide, by decide, by decide, by decide, by decide, by decide, by decide⟩

/-- Claim C1, counterexample: in the single-video pipeline a file whose name
starts with the recorded filename does not short-circuit the job.  With a
history row (id1, "vid", loc) and the file "vid.mkv" present — "vid" is a
prefix of "vid.mkv" — `downloadSingleYoutubeVideo` does not return the
already-downloaded code -4: its presence test is the exact names
"vid.mp4"/"vid.m4a", so it asks the operator instead and a refusal yields
-3.  The claim predicts a prompt-free short-circuit at this input. -/
theorem C1_counterexample :
    (("vid" : String).toList.isPrefixOf ("vid.mkv" : String).toList) = true
      ∧ runSingleYoutubeVideo [⟨"id1", "vid", "loc", "2024"⟩]
          ⟨"id1", "id1", "T", "T", "https://youtu.be/id1", "d"⟩
          ["vid.mkv"] false false 0 "f" "loc" "2025"
        = (-3, [⟨"id1", "vid", "loc", "2024"⟩])
      ∧ ((-3 : Int), [(⟨"id1", "vid", "loc", "2024"⟩ : HistoryRecord)])
          ≠ ((-4 : Int), [(⟨"id1", "vid", "loc", "2024"⟩ : HistoryRecord)]) := by
  exact ⟨by decide, by decide, by decide⟩

/-- Claim C1 as amended: dedup short-circuit and idempotence, with the
file-presence test per pipeline.  (1) In the single-video pipeline, a
history row whose recorded filename `f` has `f.mp4` or `f.m4a` on disk
short-circuits the job as already-downloaded for every operator answer,
selection and fetch outcome — no prompt, no transfer, no history write.
(2) With the row present but neither exact file on disk, the operator is
asked; refusal skips the job with history unchanged.  (3) The batch helper
`isFilePresent` instead uses the claimed filename-prefix glob: any file
starting with the recorded filename sans extension counts as present, and
with no such file the result is the negation of the operator's re-download
answer (refusal = treated as present = skip).  (4) Idempotence: starting
from a history without the id, a successful download appends exactly one
row, and a second run with the output file present short-circuits with the
history unchanged, leaving exactly one row for that id. -/
theorem C1_dedup_idempotence :
    (∀ (h : List HistoryRecord) (meta : VideoMeta) (files : List String)
        (ra se : Bool) (fs : Int) (fn loc dt : String) (r : HistoryRecord),
        historyLookup h meta.id = some r →
        (files.any (fun f => f == r.filename ++ ".mp4")
          || files.any (fun f => f == r.filename ++ ".m4a")) = true →
        runSingleYoutubeVideo h meta files ra se fs fn loc dt = (-4, h))
      ∧ (∀ (h : List HistoryRecord) (meta : VideoMeta) (files : List String)
            (se : Bool) (fs : Int) (fn loc dt : String) (r : HistoryRecord),
          historyLookup h meta.id = some r →
          (files.any (fun f => f == r.filename ++ ".mp4")
            || files.any (fun f => f == r.filename ++ ".m4a")) = false →
          runSingleYoutubeVideo h meta files false se fs fn loc dt = (-3, h))
      ∧ (∀ (files : List String) (name : String) (ans : Bool),
          (isFilePresent files name ans
            = if files.any (fun f => (splitextRoot name).toList.isPrefixOf f.toList)
              then true else !ans))
      ∧ (∀ (h : List HistoryRecord) (meta : VideoMeta) (files1 files2 : List String)
            (ra2 se2 : Bool) (fs2 : Int) (fn loc dt fn2 loc2 dt2 : String),
          historyLookup h meta.id = none →
          files2.any (fun f => f == fn ++ ".mp4") = true →
          runSingleYoutubeVideo h meta files1 false false 0 fn loc dt
              = (0, h ++ [(⟨meta.id, fn, loc, dt⟩ : HistoryRecord)])
            ∧ runSingleYoutubeVideo (h ++ [(⟨meta.id, fn, loc, dt⟩ : HistoryRecord)])
                meta files2 ra2 se2 fs2 fn2 loc2 dt2
              = (-4, h ++ [(⟨meta.id, fn, loc, dt⟩ : HistoryRecord)])
            ∧ ((h ++ [(⟨meta.id, fn, loc, dt⟩ : HistoryRecord)]).filter
                (fun r => r.video_id == meta.id)).length = 1) := by
  refine ⟨?_, ?_, ?_, ?_⟩
  · intro h meta files ra se fs fn loc dt r hl hb
    simp [runSingleYoutubeVideo, hl, hb]
  · intro h meta files se fs fn loc dt r hl hb
    simp [runSingleYoutubeVideo, hl, hb]
  · intro files name ans
    unfold isFilePresent
    rfl
  · intro h meta files1 files2 ra2 se2 fs2 fn loc dt fn2 loc2 dt2 hl hf2
    have hnotin : ∀ r ∈ h, ¬(r.video_id == meta.id) = true := by
      simpa [historyLookup, List.find?_eq_none] using hl
    have hl2 : historyLookup (h ++ [⟨meta.id, fn, loc, dt⟩]) meta.id
        = some ⟨meta.id, fn, loc, dt⟩ := by
      unfold historyLookup
      rw [List.find?_append]
      unfold historyLookup at hl
      rw [hl]
      simp
    refine ⟨?_, ?_, ?_⟩
    · simp [runSingleYoutubeVideo, hl, applyHistory]
    · have hb : (files2.any (fun f =>
          f == (⟨meta.id, fn, loc, dt⟩ : HistoryRecord).filename ++ ".mp4")
            || files2.any (fun f =>
          f == (⟨meta.id, fn, loc, dt⟩ : HistoryRecord).filename ++ ".m4a")) = true := by
        simp only [Bool.or_eq_true]
        exact Or.inl hf2
      simp [runSingleYoutubeVideo, hl2, hb]
    · rw [List.filter_append]
      have h1 : h.filter (fun r => r.video_id == meta.id) = [] :=
        List.filter_eq_nil_iff.mpr hnotin
      rw [h1]
      simp

/-- Witness for `C1_dedup_idempotence`: the idempotence component applied to
an empty starting history, concrete metadata and the produced "myvid.mp4"
present on the second run. -/
theorem C1_dedup_idempotence_witness :
    runSingleYoutubeVideo [] ⟨"abc", "abc", "T", "T", "https://youtu.be/abc", "d"⟩
        [] false false 0 "myvid" "downloads" "2025/01/01"
      = (0, [⟨"abc", "myvid", "downloads", "2025/01/01"⟩])
      ∧ runSingleYoutubeVideo [⟨"abc", "myvid", "downloads", "2025/01/01"⟩]
          ⟨"abc", "abc", "T", "T", "https://youtu.be/abc", "d"⟩
          ["myvid.mp4"] false false 0 "myvid" "downloads" "2025/02/02"
        = (-4, [⟨"abc", "myvid", "downloads", "2025/01/01"⟩])
      ∧ (([⟨"abc", "myvid", "downloads", "2025/01/01"⟩] : List HistoryRecord).filter
          (fun r => r.video_id == "abc")).length = 1 := by
  have h := C1_dedup_idempotence.2.2.2 []
    ⟨"abc", "abc", "T", "T", "https://youtu.be/abc", "d"⟩
    [] ["myvid.mp4"] false false 0 "myvid" "downloads" "2025/01/01"
    "myvid" "downloads" "2025/02/02"
    (by decide) (by decide)
  simpa using h

theorem lookupEntry_progressPop_self (p : List (String × DownloadInfo)) (k : String) :
    lookupEntry (progressPop p k) k = none := by
  induction p with
  | nil => rfl
  | cons e rest ih =>
    by_cases he : e.1 = k
    · have hb : (e.1 != k) = false := by simp [he]
      simp only [progressPop, List.filter_cons, hb, Bool.false_eq_true, if_false]
      exact ih
    · have hb : (e.1 != k) = true := by simp [he]
      have hbe : (e.1 == k) = false := by simp [he]
      simp only [progressPop, List.filter_cons, hb, if_true, lookupEntry, List.find?_cons,
        hbe]
      exact ih

theorem lookupEntry_progressPop_ne (p : List (String × DownloadInfo)) (k k' : String)
    (h : k' ≠ k) : lookupEntry (progressPop p k) k' = lookupEntry p k' := by
  induction p with
  | nil => rfl
  | cons e rest ih =>
    by_cases he : e.1 = k
    · have hb : (e.1 != k) = false := by simp [he]
      have hbe : (e.1 == k') = false := by simp [he, Ne.symm h]
      simp only [progressPop, List.filter_cons, hb, Bool.false_eq_true, if_false,
        lookupEntry, List.find?_cons, hbe]
      exact ih
    · have hb : (e.1 != k) = true := by simp [he]
      by_cases hq : e.1 = k'
      · have hbe : (e.1 == k') = true := by simp [hq]
        simp only [progressPop, List.filter_cons, hb, if_true, lookupEntry,
          List.find?_cons, hbe]
      · have hbe : (e.1 == k') = false := by simp [hq]
        simp only [progressPop, List.filter_cons, hb, if_true, lookupEntry,
          List.find?_cons, hbe]
        exact ih

/-- Claim C6, counterexample: the failure triple recorded per job is
`(webpage_url, display_id, fulltitle)`, not `(item_id, title, reason)` — its
first component is the page URL, not the item id.  Evaluated on a concrete
job whose fetch exits with status 1. -/
theorem C6_counterexample :
    (runBatchJob "mkv" "loc" false "2025"
        ⟨[], [], [], []⟩
        ⟨⟨"abc", "abc", "T", "T", "https://youtu.be/abc", "d"⟩, .exited 1, "f", false⟩).failed
      = [("https://youtu.be/abc", "abc", "T")]
      ∧ ("https://youtu.be/abc", "abc", "T").1 ≠ "abc" := by
  exact ⟨by decide, by decide⟩

/-- Claim C6 as amended: per-job failure handling.  For every job whose
fetch ends in a nonzero exit or an exception: (1) the job's step leaves the
history and description files untouched, removes the item from the
in-flight progress map and appends the triple
`(webpage_url, display_id, fulltitle)` — item id and title in the second
and third slots, the source URL (not a reason string) in the first — to the
failed list; (2) the removed progress key is gone and every other job's
progress entry is untouched; (3) over a whole batch, the failed list is the
ordered triples of exactly the failing jobs, and (4) the history is the
fold of the successful jobs' upserts only — a failure never aborts or
perturbs sibling jobs. -/
theorem C6_failure_handling :
    (∀ (fe dl : String) (wd : Bool) (td : String) (st : BatchState) (j : BatchJob),
        j.fetch ≠ .ok →
        runBatchJob fe dl wd td st j
          = { st with
              progress := progressPop st.progress j.meta.display_id
              failed := st.failed
                ++ [(j.meta.webpage_url, j.meta.display_id, j.meta.fulltitle)] })
      ∧ (∀ (p : List (String × DownloadInfo)) (k k' : String),
          lookupEntry (progressPop p k) k = none
            ∧ (k' ≠ k → lookupEntry (progressPop p k) k' = lookupEntry p k'))
      ∧ (∀ (fe dl : String) (wd : Bool) (td : String) (st : BatchState)
            (jobs : List BatchJob),
          (runBatch fe dl wd td st jobs).failed
            = st.failed
              ++ (jobs.filter (fun j => j.fetch != .ok)).map
                  (fun j => (j.meta.webpage_url, j.meta.display_id, j.meta.fulltitle)))
      ∧ (∀ (fe dl : String) (wd : Bool) (td : String) (st : BatchState)
            (jobs : List BatchJob),
          (runBatch fe dl wd td st jobs).history
            = jobs.foldl
                (fun hh j =>
                  if j.fetch = .ok then
                    applyHistory hh
                      (if j.downloaded_before then HistoryQuery.update
                        else HistoryQuery.insert,
                        ⟨j.meta.id, j.filename ++ "." ++ fe, dl, td⟩)
                  else hh)
                st.history) := by
  have hstep : ∀ (fe dl : String) (wd : Bool) (td : String) (st : BatchState)
      (j : BatchJob), j.fetch ≠ .ok →
      runBatchJob fe dl wd td st j
        = { st with
            progress := progressPop st.progress j.meta.display_id
            failed := st.failed
              ++ [(j.meta.webpage_url, j.meta.display_id, j.meta.fulltitle)] } := by
    intro fe dl wd td st j hne
    rcases j with ⟨m, fetch, fn, db⟩
    cases fetch with
    | ok => exact absurd rfl hne
    | exited code => rfl
    | raised => rfl
  have hok : ∀ (fe dl : String) (wd : Bool) (td : String) (st : BatchState)
      (j : BatchJob), j.fetch = .ok →
      (runBatchJob fe dl wd td st j).failed = st.failed
        ∧ (runBatchJob fe dl wd td st j).history
          = applyHistory st.history
              (if j.downloaded_before then HistoryQuery.update else HistoryQuery.insert,
                ⟨j.meta.id, j.filename ++ "." ++ fe, dl, td⟩) := by
    intro fe dl wd td st j hje
    rcases j with ⟨m, fetch, fn, db⟩
    cases fetch with
    | ok => exact ⟨rfl, rfl⟩
    | exited code => simp at hje
    | raised => simp at hje
  refine ⟨hstep, ?_, ?_, ?_⟩
  · intro p k k'
    exact ⟨lookupEntry_progressPop_self p k,
      fun hne => lookupEntry_progressPop_ne p k k' hne⟩
  · intro fe dl wd td st jobs
    induction jobs generalizing st with
    | nil => simp [runBatch]
    | cons j rest ih =>
      have hr : runBatch fe dl wd td st (j :: rest)
          = runBatch fe dl wd td (runBatchJob fe dl wd td st j) rest := rfl
      rw [hr, ih]
      by_cases hj : j.fetch = FetchOutcome.ok
      · have hb : (j.fetch != FetchOutcome.ok) = false := by rw [hj]; decide
        rw [(hok fe dl wd td st j hj).1]
        simp only [List.filter_cons, hb, Bool.false_eq_true, if_false]
      · have hb : (j.fetch != FetchOutcome.ok) = true := by
          cases hfetch : j.fetch with
          | ok => exact absurd hfetch hj
          | exited code => rfl
          | raised => rfl
        rw [hstep fe dl wd td st j hj]
        simp only [List.filter_cons, hb, if_true, List.map_cons, List.append_assoc,
          List.singleton_append]
  · intro fe dl wd td st jobs
    induction jobs generalizing st with
    | nil => simp [runBatch]
    | cons j rest ih =>
      have hr : runBatch fe dl wd td st (j :: rest)
          = runBatch fe dl wd td (runBatchJob fe dl wd td st j) rest := rfl
      rw [hr, ih]
      simp only [List.foldl_cons]
      by_cases hj : j.fetch = FetchOutcome.ok
      · rw [(hok fe dl wd td st j hj).2, if_pos hj]
      · rw [(hstep fe dl wd td st j hj)]
        rw [if_neg hj]

/-- Witness for `C6_failure_handling`: the whole-batch components applied to
one successful and one failing job — the failure is recorded, the success
is upserted, and neither disturbs the other. -/
theorem C6_failure_handling_witness :
    (runBatch "mkv" "loc" false "2025" ⟨[], [], [], []⟩
        [⟨⟨"ok1", "ok1", "A", "A", "https://youtu.be/ok1", "d"⟩, .ok, "fileA", false⟩,
          ⟨⟨"bad2", "bad2", "B", "B", "https://youtu.be/bad2", "d"⟩, .exited 1, "fileB", false⟩]).failed
      = [("https://youtu.be/bad2", "bad2", "B")]
      ∧ (runBatch "mkv" "loc" false "2025" ⟨[], [], [], []⟩
          [⟨⟨"ok1", "ok1", "A", "A", "https://youtu.be/ok1", "d"⟩, .ok, "fileA", false⟩,
            ⟨⟨"bad2", "bad2", "B", "B", "https://youtu.be/bad2", "d"⟩, .exited 1, "fileB", false⟩]).history
        = [⟨"ok1", "fileA.mkv", "loc", "2025"⟩] := by
  constructor
  · rw [C6_failure_handling.2.2.1 "mkv" "loc" false "2025" ⟨[], [], [], []⟩
      [⟨⟨"ok1", "ok1", "A", "A", "https://youtu.be/ok1", "d"⟩, .ok, "fileA", false⟩,
        ⟨⟨"bad2", "bad2", "B", "B", "https://youtu.be/bad2", "d"⟩, .exited 1, "fileB", false⟩]]
    decide
  · rw [C6_failure_handling.2.2.2 "mkv" "loc" false "2025" ⟨[], [], [], []⟩
      [⟨⟨"ok1", "ok1", "A", "A", "https://youtu.be/ok1", "d"⟩, .ok, "fileA", false⟩,
        ⟨⟨"bad2", "bad2", "B", "B", "https://youtu.be/bad2", "d"⟩, .exited 1, "fileB", false⟩]]
    decide

/-- Claim C7: description side-file frame property of `downloadFromYoutube`.
(1) With description-writing disabled the file store is returned untouched,
whatever the fetch outcome.  (2) A description file that exists with
non-empty content is never overwritten, whatever the fetch outcome and
flags.  (3) On a successful download with writing enabled and the file
absent or empty, the description is written.  (4) On any failed fetch no
description file is touched.  (5) The flagless CLI variant
(`downloadYoutubeVideo`) also never touches an existing description file,
even an empty one. -/
theorem C7_description_frame :
    (∀ (f : FetchOutcome) (m : VideoMeta) (fn fe dl : String) (db : Bool)
        (td : String) (p : List (String × DownloadInfo)) (fls : List (String × String)),
        (downloadFromYoutube f m fn fe dl db false td p fls).files = fls)
      ∧ (∀ (f : FetchOutcome) (m : VideoMeta) (fn fe dl : String) (db wd : Bool)
            (td : String) (p : List (String × DownloadInfo))
            (fls : List (String × String)) (c : String),
          fileGet fls (dl ++ "/" ++ fn ++ ".txt") = some c → c ≠ "" →
          (downloadFromYoutube f m fn fe dl db wd td p fls).files = fls)
      ∧ (∀ (m : VideoMeta) (fn fe dl : String) (db : Bool) (td : String)
            (p : List (String × DownloadInfo)) (fls : List (String × String)),
          (fileGet fls (dl ++ "/" ++ fn ++ ".txt") = none
              ∨ fileGet fls (dl ++ "/" ++ fn ++ ".txt") = some "") →
          (downloadFromYoutube .ok m fn fe dl db true td p fls).files
            = fileSet fls (dl ++ "/" ++ fn ++ ".txt") (descText m))
      ∧ (∀ (f : FetchOutcome) (m : VideoMeta) (fn fe dl : String) (db wd : Bool)
            (td : String) (p : List (String × DownloadInfo))
            (fls : List (String × String)), f ≠ .ok →
          (downloadFromYoutube f m fn fe dl db wd td p fls).files = fls)
      ∧ (∀ (fn : String) (m : VideoMeta) (fls : List (String × String)) (c : String),
          fileGet fls (fn ++ ".txt") = some c →
          downloadYoutubeVideoDescWrite fn m fls = fls) := by
  refine ⟨?_, ?_, ?_, ?_, ?_⟩
  · intro f m fn fe dl db td p fls
    cases f <;> simp [downloadFromYoutube]
  · intro f m fn fe dl db wd td p fls c hg hc
    cases f with
    | ok =>
      have h1 : (fileGet fls (dl ++ "/" ++ fn ++ ".txt") == none) = false := by
        simp [hg]
      have h2 : (fileGet fls (dl ++ "/" ++ fn ++ ".txt") == some "") = false := by
        simp [hg, hc]
      simp [downloadFromYoutube, h1, h2]
    | exited code => rfl
    | raised => rfl
  · intro m fn fe dl db td p fls hge
    have hcond : (fileGet fls (dl ++ "/" ++ fn ++ ".txt") == none
        || fileGet fls (dl ++ "/" ++ fn ++ ".txt") == some "") = true := by
      rcases hge with hge | hge <;> simp [hge]
    simp [downloadFromYoutube, hcond]
  · intro f m fn fe dl db wd td p fls hf
    cases f with
    | ok => exact absurd rfl hf
    | exited code => rfl
    | raised => rfl
  · intro fn m fls c hg
    have h1 : (fileGet fls (fn ++ ".txt") == none) = false := by simp [hg]
    simp [downloadYoutubeVideoDescWrite, h1]

/-- Witness for `C7_description_frame`: the populated-file component applied
to a store holding a non-empty description — the store is unchanged — and
the write component applied to an empty store — the description appears. -/
theorem C7_description_frame_witness :
    (downloadFromYoutube .ok ⟨"abc", "abc", "T", "T", "https://u", "desc"⟩
        "myvid" "mkv" "loc" false true "2025" [] [("loc/myvid.txt", "old text")]).files
      = [("loc/myvid.txt", "old text")]
      ∧ (downloadFromYoutube .ok ⟨"abc", "abc", "T", "T", "https://u", "desc"⟩
          "myvid" "mkv" "loc" false true "2025" [] []).files
        = fileSet [] "loc/myvid.txt"
            (descText ⟨"abc", "abc", "T", "T", "https://u", "desc"⟩) := by
  constructor
  · exact C7_description_frame.2.1 .ok ⟨"abc", "abc", "T", "T", "https://u", "desc"⟩
      "myvid" "mkv" "loc" false true "2025" [] [("loc/myvid.txt", "old text")]
      "old text" (by decide) (by decide)
  · have h := C7_description_frame.2.2.1 ⟨"abc", "abc", "T", "T", "https://u", "desc"⟩
      "myvid" "mkv" "loc" false "2025" [] [] (Or.inl (by decide))
    simpa using h

theorem lookupEntry_map_upd (d : List (String × DownloadInfo)) (k : String)
    (v : DownloadInfo) (h : (d.any fun e => e.1 == k) = true) :
    lookupEntry (d.map (fun e => if e.1 = k then (e.1, v) else e)) k = some v := by
  induction d with
  | nil => simp at h
  | cons e rest ih =>
    by_cases he : e.1 = k
    · have hb : (e.1 == k) = true := by simp [he]
      simp [lookupEntry, List.find?_cons, hb, he]
    · have hb : (e.1 == k) = false := by simp [he]
      have h2 : (rest.any fun e => e.1 == k) = true := by
        simp only [List.any_cons, hb, Bool.false_or] at h
        exact h
      simp only [List.map_cons, if_neg he, lookupEntry, List.find?_cons, hb]
      exact ih h2

theorem lookupEntry_append_new (d : List (String × DownloadInfo)) (k : String)
    (v : DownloadInfo) (hf : (d.any fun e => e.1 == k) = false) :
    lookupEntry (d ++ [(k, v)]) k = some v := by
  induction d with
  | nil => simp [lookupEntry, List.find?_cons]
  | cons e rest ih =>
    have h2 : (e.1 == k) = false ∧ (rest.any fun e => e.1 == k) = false := by
      simpa using hf
    simp only [List.cons_append, lookupEntry, List.find?_cons, h2.1]
    exact ih h2.2

theorem lookupEntry_upsert_self (d : List (String × DownloadInfo)) (k : String)
    (v : DownloadInfo) : lookupEntry (upsertEntry d k v) k = some v := by
  unfold upsertEntry
  by_cases h : (d.any fun e => e.1 == k) = true
  · rw [if_pos h]
    exact lookupEntry_map_upd d k v h
  · rw [if_neg h]
    exact lookupEntry_append_new d k v (Bool.eq_false_iff.mpr h)

theorem lookupEntry_displayWork (d : List (String × DownloadInfo)) (k : String)
    (v : DownloadInfo) (hv : lookupEntry d k = some v) (hs : v.status ≠ "finished") :
    lookupEntry (displayProgressWork d) k = some v := by
  induction d with
  | nil => simp [lookupEntry] at hv
  | cons e rest ih =>
    by_cases he : e.1 = k
    · have hb : (e.1 == k) = true := by simp [he]
      simp only [lookupEntry, List.find?_cons, hb, Option.map_some',
        Option.some.injEq] at hv
      have hst : (e.2.status != "finished") = true := by
        rw [hv]
        exact bne_iff_ne.mpr hs
      simp only [displayProgressWork, List.filter_cons, hst, if_true, lookupEntry,
        List.find?_cons, hb]
      simp [hv]
    · have hb : (e.1 == k) = false := by simp [he]
      simp only [lookupEntry, List.find?_cons, hb] at hv
      by_cases hst : (e.2.status != "finished") = true
      · simp only [displayProgressWork, List.filter_cons, hst, if_true, lookupEntry,
          List.find?_cons, hb]
        exact ih hv
      · have hstf : (e.2.status != "finished") = false := by simpa using hst
        simp only [displayProgressWork, List.filter_cons, hstf, Bool.false_eq_true,
          if_false]
        exact ih hv

theorem runHook_throttle_invariant (enable : Bool) (T t0 W : ℚ)
    (events : List (ℚ × ProgressSample)) (st : ProgressBarState)
    (hev : ∀ e ∈ events, t0 ≤ e.1 ∧ e.1 ≤ t0 + W) :
    st.renderCount ≤ (runHook enable T st events).renderCount
      ∧ ((runHook enable T st events).renderCount = st.renderCount →
          (runHook enable T st events).last_execution_time = st.last_execution_time)
      ∧ st.last_execution_time
            + (((runHook enable T st events).renderCount - st.renderCount : ℕ) : ℚ) * T
          ≤ (runHook enable T st events).last_execution_time
      ∧ (st.renderCount < (runHook enable T st events).renderCount →
          t0 + (((runHook enable T st events).renderCount - st.renderCount - 1 : ℕ) : ℚ) * T
              ≤ (runHook enable T st events).last_execution_time
            ∧ (runHook enable T st events).last_execution_time ≤ t0 + W) := by
  induction events generalizing st with
  | nil =>
    refine ⟨le_refl _, fun _ => rfl, by simp [runHook], fun hlt => absurd hlt (lt_irrefl _)⟩
  | cons e rest ih =>
    obtain ⟨now, p⟩ := e
    have hnow := hev (now, p) (List.mem_cons_self _ _)
    have hev' : ∀ x ∈ rest, t0 ≤ x.1 ∧ x.1 ≤ t0 + W :=
      fun x hx => hev x (List.mem_cons_of_mem _ hx)
    have hrun : runHook enable T st ((now, p) :: rest)
        = runHook enable T (progressBarHook enable T now p st) rest := rfl
    by_cases hren : enable = true ∧ T ≤ now - st.last_execution_time
    · have hstep : progressBarHook enable T now p st
          = ⟨displayProgressWork (ingestSample st.downloads p), now,
              st.renderCount + 1⟩ := by
        simp [progressBarHook, hren.1, hren.2]
      rw [hrun, hstep]
      obtain ⟨i1, i2, i3, i4⟩ :=
        ih ⟨displayProgressWork (ingestSample st.downloads p), now,
          st.renderCount + 1⟩ hev'
      dsimp only at i1 i2 i3 i4 ⊢
      refine ⟨by omega, by omega, ?_, ?_⟩
      · have hc : st.renderCount + 1
            ≤ (runHook enable T
                ⟨displayProgressWork (ingestSample st.downloads p), now,
                  st.renderCount + 1⟩ rest).renderCount := i1
        have hcast : (((runHook enable T
              ⟨displayProgressWork (ingestSample st.downloads p), now,
                st.renderCount + 1⟩ rest).renderCount - st.renderCount : ℕ) : ℚ)
            = (((runHook enable T
              ⟨displayProgressWork (ingestSample st.downloads p), now,
                st.renderCount + 1⟩ rest).renderCount - (st.renderCount + 1) : ℕ) : ℚ)
              + 1 := by
          have hn : (runHook enable T
              ⟨displayProgressWork (ingestSample st.downloads p), now,
                st.renderCount + 1⟩ rest).renderCount - st.renderCount
              = ((runHook enable T
              ⟨displayProgressWork (ingestSample st.downloads p), now,
                st.renderCount + 1⟩ rest).renderCount - (st.renderCount + 1)) + 1 := by
            omega
          rw [hn]
          push_cast
          ring
        rw [hcast]
        have hthr := hren.2
        nlinarith [i3]
      · intro _
        constructor
        · have hcast : (((runHook enable T
                ⟨displayProgressWork (ingestSample st.downloads p), now,
                  st.renderCount + 1⟩ rest).renderCount - st.renderCount - 1 : ℕ) : ℚ)
              = (((runHook enable T
                ⟨displayProgressWork (ingestSample st.downloads p), now,
                  st.renderCount + 1⟩ rest).renderCount - (st.renderCount + 1) : ℕ) : ℚ) := by
            have hn : (runHook enable T
                ⟨displayProgressWork (ingestSample st.downloads p), now,
                  st.renderCount + 1⟩ rest).renderCount - st.renderCount - 1
                = (runHook enable T
                ⟨displayProgressWork (ingestSample st.downloads p), now,
                  st.renderCount + 1⟩ rest).renderCount - (st.renderCount + 1) := by
              omega
            rw [hn]
          rw [hcast]
          nlinarith [i3, hnow.1]
        · by_cases hceq : (runHook enable T
              ⟨displayProgressWork (ingestSample st.downloads p), now,
                st.renderCount + 1⟩ rest).renderCount = st.renderCount + 1
          · rw [i2 hceq]
            exact hnow.2
          · exact (i4 (by omega)).2
    · have hstep : progressBarHook enable T now p st
          = ⟨ingestSample st.downloads p, st.last_execution_time, st.renderCount⟩ := by
        by_cases hen : enable = true
        · have hthr : ¬ T ≤ now - st.last_execution_time := fun hh => hren ⟨hen, hh⟩
          simp [progressBarHook, hen, hthr]
        · have henf : enable = false := by simpa using hen
          simp [progressBarHook, henf]
      rw [hrun, hstep]
      exact ih ⟨ingestSample st.downloads p, st.last_execution_time, st.renderCount⟩ hev'

theorem ingest_downloading_eq_upsert (d : List (String × DownloadInfo))
    (p : ProgressSample) (hst : p.status = "downloading") :
    ingestSample d p = upsertEntry d p.id (downloadingInfo p) := by
  unfold ingestSample downloadingInfo
  rw [hst]
  rfl

/-- Claim C8: progress render throttling.  (1) The class-level throttle
interval is 0.2 seconds (200 ms).  (2) Sample ingestion is never throttled:
a downloading sample's entry is present in the map after every hook call,
with the freshly ingested values, whatever the enable flag, throttle and
clock say.  (3) The rendering pass is a no-op when less than the throttle
interval has elapsed since the previous render: the render counter and the
last-render time are unchanged and the map holds exactly the ingested
state.  (4) For any sample sequence with nondecreasing wall-clock times
inside a window of width W, the number of renders grows by at most
ceil(W/T) + 1 for throttle T — so 100 samples within 50 ms trigger at most
ceil(50ms/200ms) + 1 = 2 renders at the default throttle. -/
theorem C8_render_throttling :
    throttle_timespan = 1 / 5
      ∧ (∀ (enable : Bool) (T now : ℚ) (p : ProgressSample) (st : ProgressBarState),
          p.status = "downloading" →
          lookupEntry (progressBarHook enable T now p st).downloads p.id
            = some (downloadingInfo p))
      ∧ (∀ (enable : Bool) (T now : ℚ) (p : ProgressSample) (st : ProgressBarState),
          now - st.last_execution_time < T →
          (progressBarHook enable T now p st).renderCount = st.renderCount
            ∧ (progressBarHook enable T now p st).last_execution_time
              = st.last_execution_time
            ∧ (progressBarHook enable T now p st).downloads
              = ingestSample st.downloads p)
      ∧ (∀ (enable : Bool) (T t0 W : ℚ) (st : ProgressBarState)
            (events : List (ℚ × ProgressSample)), 0 < T → 0 ≤ W →
          (∀ e ∈ events, t0 ≤ e.1 ∧ e.1 ≤ t0 + W) →
          ((runHook enable T st events).renderCount : ℤ)
            ≤ (st.renderCount : ℤ) + ⌈W / T⌉ + 1) := by
  refine ⟨by norm_num [throttle_timespan], ?_, ?_, ?_⟩
  · intro enable T now p st hst
    have hing : ingestSample st.downloads p
        = upsertEntry st.downloads p.id (downloadingInfo p) :=
      ingest_downloading_eq_upsert st.downloads p hst
    have hup : lookupEntry (ingestSample st.downloads p) p.id
        = some (downloadingInfo p) := by
      rw [hing]
      exact lookupEntry_upsert_self st.downloads p.id (downloadingInfo p)
    have hsurv : (downloadingInfo p).status ≠ "finished" := by
      show "downloading" ≠ "finished"
      decide
    by_cases hren : enable = true ∧ T ≤ now - st.last_execution_time
    · have hstep : (progressBarHook enable T now p st).downloads
          = displayProgressWork (ingestSample st.downloads p) := by
        simp [progressBarHook, hren.1, hren.2]
      rw [hstep]
      exact lookupEntry_displayWork _ _ _ hup hsurv
    · have hstep : (progressBarHook enable T now p st).downloads
          = ingestSample st.downloads p := by
        by_cases hen : enable = true
        · have hthr : ¬ T ≤ now - st.last_execution_time := fun hh => hren ⟨hen, hh⟩
          simp [progressBarHook, hen, hthr]
        · have henf : enable = false := by simpa using hen
          simp [progressBarHook, henf]
      rw [hstep]
      exact hup
  · intro enable T now p st hlt
    by_cases hen : enable = true
    · have hthr : ¬ T ≤ now - st.last_execution_time := not_le.mpr hlt
      refine ⟨?_, ?_, ?_⟩ <;> simp [progressBarHook, hen, hthr]
    · have henf : enable = false := by simpa using hen
      refine ⟨?_, ?_, ?_⟩ <;> simp [progressBarHook, henf]
  · intro enable T t0 W st events hT hW hev
    obtain ⟨i1, _, _, i4⟩ := runHook_throttle_invariant enable T t0 W events st hev
    by_cases hceq : (runHook enable T st events).renderCount = st.renderCount
    · have hceil : (0 : ℤ) ≤ ⌈W / T⌉ :=
        Int.ceil_nonneg (div_nonneg hW (le_of_lt hT))
      omega
    · obtain ⟨ha, hb⟩ := i4 (lt_of_le_of_ne i1 (Ne.symm hceq))
      have hWT : (((runHook enable T st events).renderCount
          - st.renderCount - 1 : ℕ) : ℚ) * T ≤ W := by linarith
      have hdiv : (((runHook enable T st events).renderCount
          - st.renderCount - 1 : ℕ) : ℚ) ≤ W / T := (le_div_iff₀ hT).mpr hWT
      have hceil : (((runHook enable T st events).renderCount
          - st.renderCount - 1 : ℕ) : ℤ) ≤ ⌈W / T⌉ := by
        have := le_trans hdiv (Int.le_ceil (W / T))
        exact_mod_cast this
      omega

/-- Witness for `C8_render_throttling`: the bound component applied to three
concrete samples with times 0, 1 and 2 inside a window of width 2 at
throttle 1 — at most ceil(2/1) + 1 renders. -/
theorem C8_render_throttling_witness :
    ((runHook true 1 ⟨[], -5, 0⟩
        [((0 : ℚ), ⟨"a", "downloading", some 10, some 100, some 5, some 9⟩),
          ((1 : ℚ), ⟨"a", "downloading", some 20, some 100, some 5, some 8⟩),
          ((2 : ℚ), ⟨"a", "downloading", some 30, some 100, some 5, some 7⟩)]).renderCount : ℤ)
      ≤ ((0 : ℕ) : ℤ) + ⌈(2 : ℚ) / 1⌉ + 1 :=
  C8_render_throttling.2.2.2 true 1 0 2 ⟨[], -5, 0⟩
    [((0 : ℚ), ⟨"a", "downloading", some 10, some 100, some 5, some 9⟩),
      ((1 : ℚ), ⟨"a", "downloading", some 20, some 100, some 5, some 8⟩),
      ((2 : ℚ), ⟨"a", "downloading", some 30, some 100, some 5, some 7⟩)]
    (by decide) (by decide)
    (by
      intro e he
      simp only [List.mem_cons, List.not_mem_nil, or_false] at he
      rcases he with rfl | rfl | rfl <;>
        exact ⟨by decide, by simp only [zero_add]; decide⟩)

theorem poolReach_trans (width : Nat) (s t u : PoolState)
    (h1 : PoolReach width s t) (h2 : PoolReach width t u) : PoolReach width s u := by
  induction h2 with
  | refl => exact h1
  | tail t2 u2 hre hstep ih => exact PoolReach.tail s t2 u2 ih hstep

theorem poolReach_single (width : Nat) (s t : PoolState) (h : PoolStep width s t) :
    PoolReach width s t :=
  PoolReach.tail s s t (PoolReach.refl s) h

theorem pool_drains (width p d : Nat) (hw : 0 < width) :
    PoolReach width ⟨p, 0, d⟩ ⟨0, 0, d + p⟩ := by
  induction p generalizing d with
  | zero => exact PoolReach.refl _
  | succ p ih =>
    have h1 : PoolStep width ⟨p + 1, 0, d⟩ ⟨p, 1, d⟩ := PoolStep.start p 0 d hw
    have h2 : PoolStep width ⟨p, 1, d⟩ ⟨p, 0, d + 1⟩ := PoolStep.complete p 0 d
    have h3 : PoolReach width ⟨p, 0, d + 1⟩ ⟨0, 0, (d + 1) + p⟩ := ih (d + 1)
    have heq : (d + 1) + p = d + (p + 1) := by omega
    rw [heq] at h3
    exact poolReach_trans width _ _ _
      (poolReach_trans width _ _ _ (poolReach_single width _ _ h1)
        (poolReach_single width _ _ h2))
      h3

theorem starts_fold (n : Nat) (a b : Int) (hab : a ≤ b) :
    ((List.range n).map ThreadAction.start).foldl inFlightStep (a, b)
      = (a + n, max b (a + n)) := by
  induction n with
  | zero => simp [max_eq_left hab]
  | succ n ih =>
    rw [List.range_succ, List.map_append, List.foldl_append, ih]
    show (a + ↑n + threadDelta (ThreadAction.start n),
        max (max b (a + ↑n)) (a + ↑n + threadDelta (ThreadAction.start n)))
      = (a + ↑(n + 1), max b (a + ↑(n + 1)))
    have hd : threadDelta (ThreadAction.start n) = 1 := rfl
    rw [hd, max_assoc, max_eq_right (by omega : (a + (n : Int)) ≤ a + ↑n + 1)]
    push_cast
    rw [← add_assoc]

theorem joins_fold (n : Nat) (a b : Int) (hab : a ≤ b) :
    ((List.range n).map ThreadAction.join).foldl inFlightStep (a, b)
      = (a - n, b) := by
  induction n with
  | zero => simp
  | succ n ih =>
    rw [List.range_succ, List.map_append, List.foldl_append, ih]
    show (a - ↑n + threadDelta (ThreadAction.join n),
        max b (a - ↑n + threadDelta (ThreadAction.join n)))
      = (a - ↑(n + 1), b)
    have hd : threadDelta (ThreadAction.join n) = -1 := rfl
    rw [hd, max_eq_left (by omega : a - (n : Int) + -1 ≤ b)]
    have harith : a - (n : Int) + -1 = a - ((n : Int) + 1) := by ring
    rw [harith]
    push_cast
    rfl

/-- Claim C9, counterexample: the CLI playlist pipeline does not run its
jobs through a width-4 pool.  `downloadYoutubePlaylist` starts one raw
thread per selected entry inside the loop and joins only after the loop, so
with 10 entries all 10 download threads can run simultaneously — more than
the claimed bound of 4 (the width the web batch paths pass to their
executor). -/
theorem C9_counterexample :
    maxInFlight (playlistThreadTrace 10) = 10
      ∧ ¬((10 : Int) ≤ (batchPoolWidth : Int))
      ∧ batchPoolWidth = 4 := by
  exact ⟨by decide, by decide, by decide⟩

/-- Claim C9 as amended: the web batch paths (`start_batch_download`,
`start_playlist_download`) submit their jobs to a pool of width
`max_workers = 4`, and under the pool's scheduling contract (modelled as a
step relation, since the executor is an external library): (1) every state
reachable from `n` submitted jobs keeps at most `width` jobs running and
conserves the job count; (2) a state with no possible step has no pending
and no running job — with (1) this means all `n` jobs have finished, so
every maximal schedule drains; (3) a full drain is reachable: all `n` jobs
reach the finished state.  (4) The CLI playlist pipeline
(`downloadYoutubePlaylist`) instead starts one thread per entry with all
joins after the loop, so in the schedule where threads outlive the loop the
in-flight maximum equals the full entry count `n`, unbounded by any pool
width. -/
theorem C9_concurrency_bound :
    (∀ (width n : Nat) (s : PoolState), PoolReach width ⟨n, 0, 0⟩ s →
        s.running ≤ width ∧ s.pending + s.running + s.finished = n)
      ∧ (∀ (width : Nat) (s : PoolState), 0 < width → (¬∃ t, PoolStep width s t) →
          s.pending = 0 ∧ s.running = 0)
      ∧ (∀ (width n : Nat), 0 < width → PoolReach width ⟨n, 0, 0⟩ ⟨0, 0, n⟩)
      ∧ (∀ n : Nat, maxInFlight (playlistThreadTrace n) = n) := by
  refine ⟨?_, ?_, ?_, ?_⟩
  · intro width n s hreach
    induction hreach with
    | refl => exact ⟨Nat.zero_le _, rfl⟩
    | tail t2 u2 hre hstep ih =>
      cases hstep with
      | start p r d hlt =>
        dsimp only at ih ⊢
        exact ⟨by omega, by omega⟩
      | complete p r d =>
        dsimp only at ih ⊢
        exact ⟨by omega, by omega⟩
  · intro width s hw hstuck
    rcases s with ⟨p, r, d⟩
    constructor
    · by_contra hp
      rcases r with _ | r2
      · rcases p with _ | p2
        · exact hp rfl
        · exact hstuck ⟨⟨p2, 1, d⟩, PoolStep.start p2 0 d hw⟩
      · exact hstuck ⟨⟨p, r2, d + 1⟩, PoolStep.complete p r2 d⟩
    · by_contra hr
      rcases r with _ | r2
      · exact hr rfl
      · exact hstuck ⟨⟨p, r2, d + 1⟩, PoolStep.complete p r2 d⟩
  · intro width n hw
    have h := pool_drains width n 0 hw
    simpa using h
  · intro n
    unfold maxInFlight playlistThreadTrace
    rw [List.foldl_append, starts_fold n 0 0 (le_refl 0), joins_fold n (0 + (n : Int)) _ (by omega)]
    have h0 : max (0 : Int) (0 + (n : Int)) = 0 + (n : Int) := by
      rw [max_eq_right (by omega)]
    rw [h0]
    omega

/-- Witness for `C9_concurrency_bound`: the invariant applied to the state
after one start step from 10 submitted jobs at width 4, and the drain
component at the same size. -/
theorem C9_concurrency_bound_witness :
    ((⟨9, 1, 0⟩ : PoolState).running ≤ 4
        ∧ (⟨9, 1, 0⟩ : PoolState).pending + (⟨9, 1, 0⟩ : PoolState).running
            + (⟨9, 1, 0⟩ : PoolState).finished = 10)
      ∧ PoolReach 4 ⟨10, 0, 0⟩ ⟨0, 0, 10⟩ :=
  ⟨C9_concurrency_bound.1 4 10 ⟨9, 1, 0⟩
      (poolReach_single 4 ⟨10, 0, 0⟩ ⟨9, 1, 0⟩ (PoolStep.start 9 0 0 (by decide))),
    C9_concurrency_bound.2.2.1 4 10 (by decide)⟩

/-- Claim C10: empty-id edge case of `idExtractor` and its callers' guards.
(1) On "https://youtu.be/" — a URL matching the recognized pattern with an
empty trailing id segment — `idExtractor` returns the empty string, not
`None` (the id group is quantified with `*`).  (2) Every caller guarding the
result with a truthiness test (`get_streams`, `start_download`) rejects such
a URL as an invalid reference.  (3) The batch loop (`start_batch_download`)
creates no job for it.  (4) `idExtractor`'s search returns `None` exactly
when the pattern matches at no start position, so a matching URL always
yields a string (possibly empty), never `None`. -/
theorem C10_empty_id_guard :
    idExtractor "https://youtu.be/" = some ""
      ∧ (∀ url : String, idExtractor url = some "" → guardVideoId url = .invalidUrl)
      ∧ (∀ (url : String) (rest : List String), idExtractor url = some "" →
          batchJobsCreated (url :: rest) = batchJobsCreated rest)
      ∧ (∀ cs : List Char, idSearch cs = none ↔ ∀ i, matchAt (cs.drop i) = none) := by
  refine ⟨by decide, ?_, ?_, ?_⟩
  · intro url h
    unfold guardVideoId
    rw [h]
    rfl
  · intro url rest h
    unfold batchJobsCreated
    rw [List.filterMap_cons, h]
    rfl
  · intro cs
    induction cs with
    | nil =>
      constructor
      · intro h i
        simpa using h
      · intro h
        exact h 0
    | cons c rest ih =>
      constructor
      · intro h i
        cases hm : matchAt (c :: rest) with
        | some g =>
          unfold idSearch at h
          rw [hm] at h
          exact absurd h (by simp)
        | none =>
          unfold idSearch at h
          rw [hm] at h
          cases i with
          | zero => exact hm
          | succ j => exact (ih.mp h) j
      · intro h
        have h0 : matchAt (c :: rest) = none := h 0
        unfold idSearch
        rw [h0]
        exact ih.mpr (fun j => h (j + 1))

/-- Witness for `C10_empty_id_guard`: its guard components applied to the
concrete URL "https://youtu.be/", whose extracted id evaluates to the empty
string. -/
theorem C10_empty_id_guard_witness :
    guardVideoId "https://youtu.be/" = .invalidUrl
      ∧ batchJobsCreated ["https://youtu.be/"] = [] := by
  constructor
  · exact C10_empty_id_guard.2.1 "https://youtu.be/" (by decide)
  · rw [C10_empty_id_guard.2.2.1 "https://youtu.be/" [] (by decide)]
    rfl

end Youpy
